import Mathlib

/-
Verification development for the kaggle_downloader pipeline
(src/a190rithm/tools/kaggle_downloader): a shallow embedding in Lean 4 of
the data model (models.py), the format detector and converter
(converter.py), the batch conversion coordinator (converter.py), the
storage manager (storage.py), the download tracker (download_tracker.py)
and the retry decorator (utils/retry_utils.py), together with theorems
about the embedded definitions.

Modelling conventions:
- Python exceptions are modelled by the inductive type PyExc; fallible
  operations return Except PyExc.
- Python floats (progress percentages, delays, jitter) are modelled as
  rationals.
- The filesystem is modelled explicitly where a claim needs it (lists of
  paths or path-to-content associations); logging is not modelled.
- pandas/pyarrow behaviour is modelled only as far as the converter uses
  it, on tables whose cells are raw CSV strings that are either integer
  literals or arbitrary text (the two cell classes the chunking logic
  distinguishes).
-/

namespace KD

/-- File format enumeration, after FileFormat in models.py. -/
inductive FileFormat
  | csv | json | excel | tsv | parquet | avro | orc | xml | html | txt | other
  deriving DecidableEq, Repr

/-- Per-file download state enumeration, after DownloadStatus in models.py. -/
inductive DownloadStatus
  | pending | inProgress | completed | failed | skipped
  deriving DecidableEq, Repr

/-- Dataset lifecycle state enumeration, after DatasetStatus in models.py. -/
inductive DatasetStatus
  | pending | downloading | downloaded | converting | completed | failed
  deriving DecidableEq, Repr

/-- Python exceptions, as far as the embedded code distinguishes them.
The constructor typeErrorNoKw models the CPython TypeError raised when an
Exception subclass that does not override BaseException init is
constructed with keyword arguments (message: takes no keyword arguments).
In exceptions.py, StorageError and DownloadError define a custom init
accepting keyword arguments, while ConversionError does not, so the
expression ConversionError(message, file=...) used throughout converter.py
raises this TypeError instead of producing a ConversionError. osError
models raw OS-level exceptions (FileNotFoundError and similar) escaping
unwrapped. -/
inductive PyExc
  | unsupportedFormatError (msg : String)
  | conversionError (msg : String)
  | storageError (msg : String)
  | typeErrorNoKw (cls : String)
  | osError (msg : String)
  deriving DecidableEq, Repr

deriving instance DecidableEq for Except

/-- Constructing ConversionError with the keyword argument file, as every
raise site in converter.py does: since ConversionError inherits
BaseException init unchanged, CPython rejects the keyword arguments and
the construction itself raises TypeError. -/
def conversionErrorWithFileKw (_msg _file : String) : PyExc :=
  PyExc.typeErrorNoKw "ConversionError"

/-- Exceptions caught by the batch loop in convert_dataset, which catches
the tuple (UnsupportedFormatError, ConversionError); UnsupportedFormatError
is itself a subclass of ConversionError in exceptions.py. -/
def caughtByBatchExcept : PyExc → Bool
  | .unsupportedFormatError _ => true
  | .conversionError _ => true
  | _ => false

/-- One raw data file, after the dataclass DataFile in models.py (the
optional columns, schema and checksum fields are not modelled because no
embedded operation reads them). -/
structure DataFile where
  filename : String
  format : FileFormat
  size : Nat
  path : String
  downloadStatus : DownloadStatus := .pending
  downloadProgress : ℚ := 0
  deriving DecidableEq, Repr

/-- A dataset, after the dataclass Dataset in models.py (fields not read
by any embedded operation are omitted). -/
structure Dataset where
  id : String
  name : String
  files : List DataFile
  status : DatasetStatus := .pending
  deriving DecidableEq, Repr

/- ------------------------------------------------------------------
Download tracker (download_tracker.py). Snapshot/log file writes are
side effects on a log the claims do not mention; the embedded operations
return the updated dataset value.
------------------------------------------------------------------ -/

/-- After DownloadTracker.complete_download: DOWNLOADED when every file is
COMPLETED or SKIPPED, FAILED when some file is FAILED, otherwise the
status is left unchanged. -/
def complete_download (ds : Dataset) : Dataset :=
  let allCompleted := ds.files.all fun f =>
    f.downloadStatus = DownloadStatus.completed ∨ f.downloadStatus = DownloadStatus.skipped
  if allCompleted then { ds with status := .downloaded }
  else if ds.files.any (fun f => f.downloadStatus = DownloadStatus.failed) then
    { ds with status := .failed }
  else ds

/-- Apply the body of the update_file_progress loop to one file. -/
def updProgress (progress : ℚ) (f : DataFile) : DataFile :=
  let f1 := { f with downloadProgress := progress }
  if progress ≥ 100 then { f1 with downloadStatus := .completed }
  else if progress > 0 then { f1 with downloadStatus := .inProgress }
  else f1

/-- Apply g to the first list element satisfying p, like the for/break
loops in download_tracker.py. -/
def mapFirst (p : α → Bool) (g : α → α) : List α → List α
  | [] => []
  | x :: xs => if p x then g x :: xs else x :: mapFirst p g xs

/-- After DownloadTracker.update_file_progress: the first file with the
given name gets the new progress; at 100 or more it becomes COMPLETED, at
positive progress IN_PROGRESS; the dataset status is not touched. -/
def update_file_progress (ds : Dataset) (filename : String) (progress : ℚ) : Dataset :=
  { ds with files := mapFirst (fun f => f.filename = filename) (updProgress progress) ds.files }

/-- A download state is terminal when it is COMPLETED, FAILED or SKIPPED. -/
def terminalDS (s : DownloadStatus) : Prop :=
  s = .completed ∨ s = .failed ∨ s = .skipped

instance : DecidablePred terminalDS := fun s => by
  unfold terminalDS; infer_instance

/-- The spec invariant: a dataset is DOWNLOADED only when every file is in
a terminal download state. -/
def downloadedInv (ds : Dataset) : Prop :=
  ds.status = .downloaded → ∀ f ∈ ds.files, terminalDS f.downloadStatus

instance : DecidablePred downloadedInv := fun ds => by
  unfold downloadedInv; infer_instance

/- ------------------------------------------------------------------
Retry decorator (utils/retry_utils.py). The wrapped callable is modelled
as a stream of attempt outcomes (value or exception, with a flag telling
whether the exception matches the configured exception tuple); the random
jitter draws are a stream of rationals. The result is paired with the
list of sleep durations passed to time.sleep.
------------------------------------------------------------------ -/

/-- Outcome of one attempt of the wrapped callable: a returned value, or a
raised exception identified by an id, with inSet true when the exception
is an instance of the configured exception tuple. -/
inductive Attempt (α : Type)
  | val (a : α)
  | exc (inSet : Bool) (id : Nat)
  deriving DecidableEq, Repr

/-- The while-True loop of the wrapper in retry: k is the index of the
current attempt, localTries the remaining retry budget, d the current
delay. On an in-set exception with exhausted budget, or on any out-of-set
exception, the exception propagates; otherwise the wrapper sleeps
d * (1 + jitter draw) and retries with delay d * backoff. -/
def retryGo (att : Nat → Attempt α) (jit : Nat → ℚ) (backoff : ℚ) :
    Nat → Nat → ℚ → (Except (Bool × Nat) α) × List ℚ
  | k, localTries, d =>
    match att k with
    | .val a => (.ok a, [])
    | .exc ins id =>
      if ins then
        match localTries with
        | 0 => (.error (ins, id), [])
        | lt + 1 =>
          let s := d * (1 + jit k)
          let r := retryGo att jit backoff (k + 1) lt (d * backoff)
          (r.1, s :: r.2)
      else (.error (ins, id), [])

/-- The retry decorator applied to a callable: starts at attempt 0 with
the configured tries and initial delay. -/
def retryRun (att : Nat → Attempt α) (jit : Nat → ℚ) (tries : Nat) (delay backoff : ℚ) :
    (Except (Bool × Nat) α) × List ℚ :=
  retryGo att jit backoff 0 tries delay

/- ------------------------------------------------------------------
Format detection (DataConverter.detect_format / is_supported_format in
converter.py). A path is a slash-separated string; the suffix is computed
as pathlib computes it: the last dot of the final component, provided it
is neither the first nor the last character of that component.
------------------------------------------------------------------ -/

/-- Final path component (pathlib Path name, for slash-separated paths):
the characters after the last slash. -/
def pyBaseName (p : String) : String :=
  String.mk ((p.data.reverse.takeWhile fun c => c ≠ '/').reverse)

/-- Index of the last occurrence of c in cs, if any. -/
def lastIdxOf (c : Char) (cs : List Char) : Option Nat :=
  (cs.reverse.indexOf? c).map (fun j => cs.length - 1 - j)

/-- Extension of a path, after pathlib Path suffix: the substring of the
final component from its last dot, empty when the last dot is the first
character of the component or there is no character after it. -/
def pySuffix (p : String) : String :=
  let cs := (pyBaseName p).data
  match lastIdxOf '.' cs with
  | none => ""
  | some i => if 0 < i ∧ i < cs.length - 1 then String.mk (cs.drop i) else ""

/-- Lowercase a string character by character (Python str.lower on the
ASCII range, matching Lean Char.toLower). -/
def pyToLower (s : String) : String :=
  String.mk (s.data.map Char.toLower)

/-- After DataConverter.detect_format: lowercase the extension and match
it against the recognized extensions, falling back to OTHER. -/
def detect_format (filePath : String) : FileFormat :=
  let suffix := pyToLower (pySuffix filePath)
  if suffix = ".csv" then .csv
  else if suffix = ".json" ∨ suffix = ".jsonl" then .json
  else if suffix = ".xls" ∨ suffix = ".xlsx" then .excel
  else if suffix = ".tsv" then .tsv
  else if suffix = ".parquet" then .parquet
  else if suffix = ".avro" then .avro
  else if suffix = ".orc" then .orc
  else if suffix = ".xml" ∨ suffix = ".svg" then .xml
  else if suffix = ".html" ∨ suffix = ".htm" then .html
  else if suffix = ".txt" ∨ suffix = ".md" ∨ suffix = ".rst" then .txt
  else .other

/-- After DataConverter.is_supported_format: membership in the class
constant SUPPORTED_FORMATS. -/
def is_supported_format : FileFormat → Bool
  | .csv | .json | .excel | .tsv | .parquet => true
  | _ => false

/- ------------------------------------------------------------------
Conversion model. A table is the parsed content of a delimited text file
(the delimiter, comma for CSV and tab for TSV, is abstracted away by
working on parsed cells). Cells are raw strings; a cell is integer-like
when it is an optionally negated nonempty digit string, which is the cell
class pandas type inference assigns int64 to in this fragment; every
other cell makes its column object-typed (string values).
------------------------------------------------------------------ -/

/-- Parsed content of a delimited text file. -/
structure Table where
  header : List String
  rows : List (List String)
  deriving DecidableEq, Repr

/-- A pandas column dtype, as far as this fragment distinguishes them. -/
inductive Dtype
  | int64 | obj
  deriving DecidableEq, Repr

/-- A typed cell value in a pandas frame or arrow table. -/
inductive PValue
  | pint (n : Int)
  | pstr (s : String)
  deriving DecidableEq, Repr

/-- Whether a raw cell parses as an integer literal. -/
def isIntCell (s : String) : Bool :=
  match s.data with
  | [] => false
  | '-' :: rest => !rest.isEmpty && rest.all Char.isDigit
  | cs => cs.all Char.isDigit

/-- Column-wide dtype inference over a list of raw cells (pandas read with
low_memory False infers one dtype per column: int64 when every cell is an
integer literal, otherwise object holding the raw strings). -/
def inferDtype (vals : List String) : Dtype :=
  if vals.all isIntCell then .int64 else .obj

/-- Decimal value of a digit string. -/
def digitsToNat (cs : List Char) : Nat :=
  cs.foldl (fun acc c => 10 * acc + (c.toNat - 48)) 0

/-- Integer value of a cell that passed isIntCell. -/
def parseIntCell (s : String) : Int :=
  match s.data with
  | '-' :: rest => - Int.ofNat (digitsToNat rest)
  | cs => Int.ofNat (digitsToNat cs)

/-- Coerce a raw cell at a given dtype. -/
def coerceCell : Dtype → String → PValue
  | .int64, s => .pint (parseIntCell s)
  | .obj, s => .pstr s

/-- Parse a raw cell under an explicitly requested dtype, as pandas
read_csv does when the dtype argument is passed: requesting an integer
dtype for a non-integer cell raises (ValueError). -/
def readCell (d : Dtype) (s : String) : Except String PValue :=
  if d = .int64 ∧ ¬ isIntCell s then .error "invalid literal for requested dtype"
  else .ok (coerceCell d s)

/-- Values of column j of a list of rows. -/
def colVals (rows : List (List String)) (j : Nat) : List String :=
  rows.map fun r => r.getD j ""

/-- Dtypes inferred for every column from a list of rows. -/
def inferDtypes (hdr : List String) (rows : List (List String)) : List Dtype :=
  (List.range hdr.length).map fun j => inferDtype (colVals rows j)

/-- Dtypes of the 1000-row leading sample, after the sample read
pd.read_csv(path, nrows=1000) in the chunked branch of _convert_csv. -/
def sampleDtypes (t : Table) : List Dtype :=
  inferDtypes t.header (t.rows.take 1000)

/-- Parse one row under requested per-column dtypes. -/
def readRowForced (hdr : List String) (dts : List Dtype) (r : List String) :
    Except String (List PValue) :=
  (List.range hdr.length).mapM fun j => readCell (dts.getD j .obj) (r.getD j "")

/-- Coerce one row at column-wide inferred dtypes (inference guarantees
integer columns contain only integer literals, so no cell can fail). -/
def coerceRow (hdr : List String) (dts : List Dtype) (r : List String) : List PValue :=
  (List.range hdr.length).map fun j => coerceCell (dts.getD j .obj) (r.getD j "")

/-- Structural worker for chunksOf: the fuel argument bounds the number
of chunks; every call below passes at least the list length, so the
zero-fuel fallback is never reached there. -/
def chunksOfAux (c : Nat) : Nat → List α → List (List α)
  | _, [] => []
  | 0, l => [l]
  | fuel + 1, x :: xs => (x :: xs.take c) :: chunksOfAux c fuel (xs.drop c)

/-- Split a list into consecutive chunks of at most c elements, after the
pandas chunksize iterator (chunksize zero, which pandas rejects, is
totalized as a single chunk); implemented with a structural fuel bound of
the list length so that it reduces by computation. -/
def chunksOf : Nat → List α → List (List α)
  | _, [] => []
  | 0, l => [l]
  | c + 1, l => chunksOfAux c l.length l

/-- Result of converting one table: the physical output file carries a
schema and typed row data, and the conversion reports a row count. -/
structure ConvResult where
  schema : List (String × Dtype)
  rowData : List (List PValue)
  rows : Nat
  deriving DecidableEq, Repr

/-- Whole-file read-and-write branch of _convert_csv (file at or below the
100 MiB threshold): read everything at once with column-wide inference,
write one parquet file, report the frame length. -/
def convert_csv_small (t : Table) : ConvResult :=
  let dts := inferDtypes t.header t.rows
  { schema := t.header.zip dts
    rowData := t.rows.map (coerceRow t.header dts)
    rows := t.rows.length }

/-- Chunked branch of _convert_csv (file above the 100 MiB threshold):
read a 1000-row sample to infer names and dtypes, force the sampled
object columns to string by passing an explicit dtype to the chunked
read, then stream every chunk through one open ParquetWriter into one
output file, counting rows per chunk. A chunk whose cell cannot be
parsed at the requested dtype raises, and the handler wraps the failure
as ConversionError(message, file=...), whose construction itself raises
TypeError; with zero chunks the writer is never opened, no output file
exists, and reading it back fails the same way. -/
def convert_csv_big (t : Table) (chunkSize : Nat) : Except PyExc ConvResult :=
  if (chunksOf chunkSize t.rows).isEmpty then
    .error (conversionErrorWithFileKw "CSV conversion failed" "")
  else
    match (chunksOf chunkSize t.rows).mapM
        (fun ch => ch.mapM (readRowForced t.header (sampleDtypes t))) with
    | .error _ => .error (conversionErrorWithFileKw "CSV conversion failed" "")
    | .ok parsed =>
        .ok { schema := t.header.zip (sampleDtypes t)
              rowData := parsed.flatten
              rows := (parsed.map List.length).sum }

/-- DataConverter._convert_csv: choose the chunked branch when the source
file exceeds 100 MiB. -/
def convert_csv (fileSize : Nat) (t : Table) (chunkSize : Nat) : Except PyExc ConvResult :=
  if fileSize > 100 * 1024 * 1024 then convert_csv_big t chunkSize
  else .ok (convert_csv_small t)

/-- Whole-file branch of _convert_tsv: identical to the CSV branch except
for the tab delimiter (already abstracted by Table). -/
def convert_tsv_small (t : Table) : ConvResult :=
  let dts := inferDtypes t.header t.rows
  { schema := t.header.zip dts
    rowData := t.rows.map (coerceRow t.header dts)
    rows := t.rows.length }

/-- Chunked branch of _convert_tsv: a sample is read but its dtypes are
not passed to the chunked read, so each chunk is typed by its own
column-wide inference; the first chunk is written with
DataFrame.to_parquet, and every later chunk calls to_parquet with
append=True, an argument the pyarrow engine rejects, raising TypeError —
so any input spanning two or more chunks fails, the handler then wraps
the failure as ConversionError(message, file=...) whose construction
raises TypeError. With zero chunks no file is written and reading it
back fails; with exactly one chunk the file holds that chunk under its
own inferred dtypes and the row count is recomputed by re-reading the
source. -/
def convert_tsv_big (t : Table) (chunkSize : Nat) : Except PyExc ConvResult :=
  match chunksOf chunkSize t.rows with
  | [] => .error (conversionErrorWithFileKw "TSV conversion failed" "")
  | [c] =>
      let dts := inferDtypes t.header c
      .ok { schema := t.header.zip dts
            rowData := c.map (coerceRow t.header dts)
            rows := t.rows.length }
  | _ => .error (conversionErrorWithFileKw "TSV conversion failed" "")

/-- DataConverter._convert_tsv: choose the chunked branch when the source
file exceeds 100 MiB. -/
def convert_tsv (fileSize : Nat) (t : Table) (chunkSize : Nat) : Except PyExc ConvResult :=
  if fileSize > 100 * 1024 * 1024 then convert_tsv_big t chunkSize
  else .ok (convert_tsv_small t)

/-- DataConverter._convert_json on a source that parses into a single
table: every successful read path of the method (read_json with
lines=True for JSON Lines, record-orient read_json, or the manual
json.load fallbacks) ends with one DataFrame carrying pandas column-wide
inference, written once with DataFrame.to_parquet; rows is len(df). The
existence pre-check of the method and the except handler of convert_file
both run raise ConversionError(message, file=...), whose construction
itself raises TypeError; convert_file models the missing-source case at
its filesystem lookup. -/
def convert_json (t : Table) : ConvResult :=
  let dts := inferDtypes t.header t.rows
  { schema := t.header.zip dts
    rowData := t.rows.map (coerceRow t.header dts)
    rows := t.rows.length }

/-- DataConverter._convert_excel on a single-sheet workbook whose sheet
parses into a table: pd.read_excel yields one DataFrame with pandas
column-wide inference, written once with DataFrame.to_parquet; rows is
len(df). A multi-sheet workbook writes one file per sheet and returns the
first sheet as representative; FsEntry.tableFile models a single-sheet
source, the case the embedded claims exercise. The existence pre-check
and the except handlers run raise ConversionError(message, file=...),
whose construction itself raises TypeError. -/
def convert_excel (t : Table) : ConvResult :=
  let dts := inferDtypes t.header t.rows
  { schema := t.header.zip dts
    rowData := t.rows.map (coerceRow t.header dts)
    rows := t.rows.length }

/- ------------------------------------------------------------------
Single-file conversion (DataConverter.convert_file) over an explicit
filesystem mapping paths to contents.
------------------------------------------------------------------ -/

/-- Stem of a filename, after os.path.splitext(os.path.basename(f))[0]:
split at the last dot of the base name, unless every character before
that dot is itself a dot. -/
def pySplitextStem (fileName : String) : String :=
  let name := pyBaseName fileName
  let cs := name.data
  match lastIdxOf '.' cs with
  | none => name
  | some i => if (cs.take i).any (fun c => c ≠ '.') then String.mk (cs.take i) else name

/-- Output filename of a conversion, as built in _convert_csv, the batch
coordinator and the other per-format handlers: the stem plus .parquet. -/
def outputName (fileName : String) : String :=
  pySplitextStem fileName ++ ".parquet"

/-- A converted artifact, after the dataclass ParquetFile in models.py
(size, compression ratio, timestamps and conversion status are not
modelled: no embedded claim reads them). -/
structure ParquetFile where
  original : DataFile
  filename : String
  path : String
  rows : Nat
  schema : List (String × Dtype)
  deriving DecidableEq, Repr

/-- Content of a source file, as far as the converter reads it: a parsed
delimited table, a parquet file with its own metadata, or raw bytes. -/
inductive FsEntry
  | tableFile (t : Table)
  | parquetSrc (rows : Nat) (schema : List (String × Dtype))
  | binaryFile
  deriving DecidableEq, Repr

/-- A filesystem: an association of paths to file contents. -/
def fsLookup (fs : List (String × FsEntry)) (p : String) : Option FsEntry :=
  (fs.find? (fun e => e.1 == p)).map (fun e => e.2)

/-- DataConverter.convert_file. The format check comes first and raises
UnsupportedFormatError before anything is written (in the source it
precedes every makedirs, read and write). The PARQUET pass-through copy
runs before the try/except block, so its failures (for instance
shutil.copy2 on a missing source) escape as raw OS errors, unwrapped.
All other formats run inside the try block whose handler executes
raise ConversionError(message, file=...), a construction that itself
raises TypeError: a missing source file, whether caught by the
pre-checks of _convert_json and _convert_excel (themselves raising
ConversionError with the file keyword) or surfacing as FileNotFoundError
from a read inside the try block, therefore reaches the caller as that
TypeError. The unreachable unknown-format branch inside the try raises
UnsupportedFormatError, which the handler re-wraps the same failing
way. -/
def convert_file (fs : List (String × FsEntry)) (chunkSize : Nat) (outDir : String)
    (df : DataFile) : Except PyExc ParquetFile :=
  if ¬ is_supported_format df.format then
    .error (.unsupportedFormatError "unsupported file format")
  else if df.format = .parquet then
    match fsLookup fs df.path with
    | some (.parquetSrc r sch) =>
        .ok { original := df, filename := pyBaseName df.filename
              path := outDir ++ "/" ++ pyBaseName df.filename, rows := r, schema := sch }
    | _ => .error (.osError "FileNotFoundError")
  else
    match fsLookup fs df.path with
    | some (.tableFile t) =>
        ((match df.format with
          | .csv => convert_csv df.size t chunkSize
          | .tsv => convert_tsv df.size t chunkSize
          | .json => .ok (convert_json t)
          | .excel => .ok (convert_excel t)
          | _ => .error (conversionErrorWithFileKw "unknown file format" df.filename)) :
            Except PyExc ConvResult).map fun r =>
          { original := df, filename := outputName df.filename
            path := outDir ++ "/" ++ outputName df.filename, rows := r.rows, schema := r.schema }
    | _ => .error (conversionErrorWithFileKw "source file does not exist" df.filename)

/- ------------------------------------------------------------------
Batch conversion coordinator (DataConverter.convert_dataset and
DataConverter.multi_process_convert). The per-file conversion is
abstracted by an outcome function, the value or exception that
self.convert_file (or its worker-side copy) produces for each file.
------------------------------------------------------------------ -/

/-- The partition loop at the head of convert_dataset: eligible
(supported_files), unsupported (unsupported_files), and already-converted
(already_converted_files, collected only when force is false and the
target output path exists). existsOut is the list of output filenames
already present in the output directory. -/
def partitionFiles (existsOut : List String) (force : Bool) :
    List DataFile → List DataFile × List DataFile × List DataFile
  | [] => ([], [], [])
  | f :: fs =>
    let rest := partitionFiles existsOut force fs
    if !(is_supported_format f.format) then (rest.1, f :: rest.2.1, rest.2.2)
    else if !force && existsOut.contains (outputName f.filename) then
      (rest.1, rest.2.1, f :: rest.2.2)
    else (f :: rest.1, rest.2.1, rest.2.2)

/-- The sequential conversion loop: convert each file in order, catching
(UnsupportedFormatError, ConversionError) and dropping the failed file;
any other exception propagates and aborts the loop. -/
def convertSeq (outcome : DataFile → Except PyExc ParquetFile) :
    List DataFile → Except PyExc (List ParquetFile)
  | [] => .ok []
  | f :: fs =>
    match outcome f with
    | .ok a => (convertSeq outcome fs).map (fun l => a :: l)
    | .error e => if caughtByBatchExcept e then convertSeq outcome fs else .error e

/-- The worker-pool path: each worker catches every exception and reports
a failure record, the coordinator keeps the successes; results are
collected by iterating the futures in submission order. -/
def convertPar (outcome : DataFile → Except PyExc ParquetFile)
    (files : List DataFile) : List ParquetFile :=
  files.filterMap fun f => (outcome f).toOption

/-- DataConverter.multi_process_convert: clamp the worker count to
max 1 (min requested fileCount cpuCount), refilter supported files, and
fall back to the sequential loop for a single file or a single worker. -/
def multi_process_convert (outcome : DataFile → Except PyExc ParquetFile)
    (files : List DataFile) (requested cpu : Nat) : Except PyExc (List ParquetFile) :=
  let procs := max 1 (min requested (min files.length cpu))
  let supported := files.filter fun f => is_supported_format f.format
  if supported.isEmpty then .ok []
  else if supported.length = 1 ∨ procs ≤ 1 then convertSeq outcome supported
  else .ok (convertPar outcome supported)

/-- DataConverter.convert_dataset: partition, return the empty list when
nothing is eligible, run sequentially for one eligible file or a
configured worker count of at most one, otherwise delegate to
multi_process_convert. -/
def convert_dataset (existsOut : List String) (force : Bool) (processes cpu : Nat)
    (outcome : DataFile → Except PyExc ParquetFile) (files : List DataFile) :
    Except PyExc (List ParquetFile) :=
  let parts := partitionFiles existsOut force files
  let supported := parts.1
  if supported.isEmpty then .ok []
  else if supported.length = 1 ∨ processes ≤ 1 then convertSeq outcome supported
  else multi_process_convert outcome supported processes cpu

/- ------------------------------------------------------------------
Storage manager (storage.py). The filesystem state tracked by the model:
created directories, copied artifact targets, and written manifests.
------------------------------------------------------------------ -/

/-- Replace every character that is not alphanumeric, hyphen or
underscore by an underscore, after the sanitization in get_dataset_path. -/
def sanitizeName (name : String) : String :=
  String.mk (name.data.map fun c =>
    if c.isAlphanum ∨ c = '-' ∨ c = '_' then c else '_')

/-- StorageManager.get_dataset_path with the default structure template,
which resolves to kaggle/<sanitized name>_<timestamp> under the base
directory. -/
def get_dataset_path (baseDir : String) (dsName ts : String) : String :=
  baseDir ++ "/kaggle/" ++ sanitizeName dsName ++ "_" ++ ts

/-- Filesystem state affected by the storage manager. -/
structure StoreFs where
  dirs : List String
  copied : List String
  manifests : List String
  deriving DecidableEq, Repr

/-- The copy loop of store_parquet_files: copy each artifact into the
storage directory; the first failing copy raises StorageError at once,
leaving the copies already made in place. failSrc lists the source paths
whose shutil.copy2 call fails. -/
def copyLoop (dir : String) (failSrc : List String) :
    List ParquetFile → StoreFs → Except (PyExc × StoreFs) StoreFs
  | [], st => .ok st
  | pf :: rest, st =>
    if failSrc.contains pf.path then
      .error (.storageError "failed to store parquet file", st)
    else
      copyLoop dir failSrc rest { st with copied := st.copied ++ [dir ++ "/" ++ pf.filename] }

/-- StorageManager.store_parquet_files: an empty artifact list returns
the empty string untouched; otherwise resolve (and create) the dataset
directory, copy every artifact, then write the manifest via save_metadata
(whose write failure raises StorageError). The result carries the final
filesystem state, on failure as well, since copies persist. -/
def store_parquet_files (baseDir : String) (failSrc : List String) (manifestFails : Bool)
    (dsName ts : String) (parquetFiles : List ParquetFile) (st : StoreFs) :
    Except (PyExc × StoreFs) (String × StoreFs) :=
  if parquetFiles.isEmpty then .ok ("", st)
  else
    match copyLoop (get_dataset_path baseDir dsName ts) failSrc parquetFiles
        { st with dirs := st.dirs ++ [get_dataset_path baseDir dsName ts] } with
    | .error es => .error es
    | .ok st2 =>
        if manifestFails then .error (.storageError "failed to save metadata", st2)
        else .ok (get_dataset_path baseDir dsName ts,
          { st2 with manifests := st2.manifests ++
              [get_dataset_path baseDir dsName ts ++ "/metadata.json"] })

/- ------------------------------------------------------------------
Dataset listing (StorageManager.list_datasets). The kaggle directory is
modelled as the list of its entries in directory order; each entry has a
name and a manifest state (present with its summary fields, corrupt, or
missing).
------------------------------------------------------------------ -/

/-- State of the metadata.json inside one stored-dataset directory. -/
inductive ManifestState
  | present (created : String) (ref : String) (fileCount : Nat)
  | corrupt
  | missing
  deriving DecidableEq, Repr

/-- One immediate subdirectory of the kaggle base location. -/
structure DirEnt where
  name : String
  manifest : ManifestState
  deriving DecidableEq, Repr

/-- A record returned by list_datasets: the detail-mode record variants
(full manifest, unreadable manifest turned error marker, missing
manifest marker) and the brief summary record. -/
inductive DsRecord
  | detailFull (dir dsName created : String)
  | detailErr (dir dsName : String)
  | detailMissing (dir dsName : String)
  | brief (dsName dpath created ref : String) (fileCount : Nat)
  deriving DecidableEq, Repr

/-- The sort key of list_datasets: the created field when the record has
one, the empty string otherwise (the Python code sorts on
x.get("created", "")). -/
def recCreated : DsRecord → String
  | .detailFull _ _ c => c
  | .brief _ _ c _ _ => c
  | _ => ""

/-- Whether needle occurs as a substring of hay (the Python in operator
on strings). -/
def strContains (hay needle : String) : Bool :=
  (List.range (hay.data.length + 1)).any fun i => needle.data.isPrefixOf (hay.data.drop i)

/-- Build the record for one entry, as the collection loop of
list_datasets does for the given detail mode. -/
def recordOf (baseDir : String) (detail : Bool) (d : DirEnt) : DsRecord :=
  let dpath := baseDir ++ "/kaggle/" ++ d.name
  if detail then
    match d.manifest with
    | .present c _ _ => .detailFull dpath d.name c
    | .corrupt => .detailErr dpath d.name
    | .missing => .detailMissing dpath d.name
  else
    match d.manifest with
    | .present c r k => .brief d.name dpath c r k
    | _ => .brief d.name dpath "" "" 0

/-- Lexicographic strict order on character lists, the order Python uses
to compare strings (by code point). -/
def lexLt : List Char → List Char → Bool
  | [], [] => false
  | [], _ :: _ => true
  | _ :: _, [] => false
  | a :: as, b :: bs => if a < b then true else if b < a then false else lexLt as bs

/-- Strict string comparison by code points (the Python < on strings). -/
def pyStrLt (a b : String) : Bool :=
  lexLt a.data b.data

/-- Insert x into a list sorted descending by key, after every element
with a strictly greater key; equal keys keep the incoming element first,
which matches the stability of the Python sort. -/
def insertDesc (key : α → String) (x : α) : List α → List α
  | [] => [x]
  | y :: ys => if pyStrLt (key x) (key y) then y :: insertDesc key x ys else x :: y :: ys

/-- Stable descending insertion sort by a string key, the model of Python
list.sort(key=..., reverse=True). -/
def sortDesc (key : α → String) : List α → List α
  | [] => []
  | x :: xs => insertDesc key x (sortDesc key xs)

/-- The pattern step of list_datasets: keep the entries whose lowercased
name contains the lowercased pattern as a substring. -/
def filterPattern (pattern : Option String) (entries : List DirEnt) : List DirEnt :=
  match pattern with
  | some p => entries.filter fun (d : DirEnt) => strContains (pyToLower d.name) (pyToLower p)
  | none => entries

/-- The limit step of list_datasets: truncate when a positive limit is
given. -/
def capLimit (limit : Option Int) (entries : List DirEnt) : List DirEnt :=
  match limit with
  | some l => if l > 0 then entries.take l.toNat else entries
  | none => entries

/-- StorageManager.list_datasets: filter the entries by a case-insensitive
substring pattern when given, truncate to limit when a positive limit is
given, build one record per surviving entry, and stable-sort the records
by their created key, most recent first (Python list.sort with
reverse=True is a stable descending sort). -/
def list_datasets (baseDir : String) (entries : List DirEnt)
    (pattern : Option String) (detail : Bool) (limit : Option Int) : List DsRecord :=
  sortDesc recCreated ((capLimit limit (filterPattern pattern entries)).map (recordOf baseDir detail))

/- ------------------------------------------------------------------
Concrete values used by witnesses and counterexamples.
------------------------------------------------------------------ -/

/-- A file still in progress, for the tracker counterexample. -/
def fileInProg : DataFile :=
  { filename := "f.csv", format := .csv, size := 1, path := "p",
    downloadStatus := .inProgress, downloadProgress := 50 }

/-- A completed file, for the tracker theorems. -/
def fileDone : DataFile :=
  { filename := "f.csv", format := .csv, size := 1, path := "p",
    downloadStatus := .completed, downloadProgress := 100 }

/-- A dataset already marked DOWNLOADED with a non-terminal file. -/
def dsStale : Dataset := { id := "o/d", name := "d", files := [fileInProg], status := .downloaded }

/-- A dataset marked DOWNLOADED whose only file is COMPLETED. -/
def dsDone : Dataset := { id := "o/d", name := "d", files := [fileDone], status := .downloaded }

/-- A dataset still DOWNLOADING whose only file is COMPLETED. -/
def dsFresh : Dataset :=
  { id := "o/d", name := "d", files := [fileDone], status := .downloading }

/-- A callable that fails twice with an in-set exception, then returns. -/
def attDemo : Nat → Attempt Nat := fun k => if k < 2 then .exc true k else .val 42

/-- A jitter stream drawing zero every time. -/
def jitDemo : Nat → ℚ := fun _ => 0

/-- A supported input file for the batch witness. -/
def dfCsvDemo : DataFile :=
  { filename := "a.csv", format := .csv, size := 10, path := "pa",
    downloadStatus := .completed, downloadProgress := 100 }

/-- An unsupported input file for the batch witness. -/
def dfOtherDemo : DataFile :=
  { filename := "b.xyz", format := .other, size := 10, path := "pb",
    downloadStatus := .completed, downloadProgress := 100 }

/-- The artifact the demo outcome returns. -/
def artDemo : ParquetFile :=
  { original := dfCsvDemo, filename := "a.parquet", path := "out/a.parquet",
    rows := 5, schema := [("a", .int64)] }

/-- A per-file conversion outcome that always succeeds with artDemo. -/
def outcomeDemo : DataFile → Except PyExc ParquetFile := fun _ => .ok artDemo

/-- Artifact stored from source path srcA. -/
def artStoreA : ParquetFile :=
  { original := dfCsvDemo, filename := "a.parquet", path := "srcA", rows := 1, schema := [] }

/-- Artifact stored from source path srcB. -/
def artStoreB : ParquetFile :=
  { original := dfCsvDemo, filename := "b.parquet", path := "srcB", rows := 1, schema := [] }

/-- Two stored-dataset directories for the listing witness. -/
def entsDemo : List DirEnt :=
  [ { name := "alpha", manifest := .present "2024-01-01" "r1" 2 },
    { name := "beta", manifest := .present "2024-06-01" "r2" 1 } ]

/-- A single-column table whose first thousand rows are integer literals
and whose last row is the string x: the 1000-row sample sees only
integers, so the column is not forced to string. -/
def tblMixedLate : Table :=
  { header := ["a"], rows := List.replicate 1000 ["7"] ++ [["x"]] }

/-- A single-column table mixing an integer literal and a string inside
the sample window. -/
def tblMixedEarly : Table := { header := ["a"], rows := [["1"], ["z"]] }

/- ------------------------------------------------------------------
Helper lemmas.
------------------------------------------------------------------ -/

lemma except_mapM_nil (g : α → Except ε β) : ([] : List α).mapM g = .ok [] := rfl

lemma except_mapM_cons (g : α → Except ε β) (a : α) (l : List α) :
    (a :: l).mapM g =
      match g a with
      | .error e => .error e
      | .ok b =>
        match l.mapM g with
        | .error e => .error e
        | .ok bs => .ok (b :: bs) := by
  rw [List.mapM_cons]
  cases h : g a with
  | error e => simp only [h]; rfl
  | ok b =>
    simp only [h]
    cases h2 : l.mapM g with
    | error e => simp only [h2]; rfl
    | ok bs => simp only [h2]; rfl

lemma except_mapM_append (g : α → Except ε β) (l1 l2 : List α) :
    (l1 ++ l2).mapM g =
      match l1.mapM g with
      | .error e => .error e
      | .ok b1 =>
        match l2.mapM g with
        | .error e => .error e
        | .ok b2 => .ok (b1 ++ b2) := by
  induction l1 with
  | nil =>
    rw [List.nil_append, except_mapM_nil]
    cases h2 : l2.mapM g <;> rfl
  | cons a l1 ih =>
    rw [List.cons_append, except_mapM_cons, except_mapM_cons, ih]
    cases h : g a with
    | error e => rfl
    | ok b =>
      cases h1 : l1.mapM g with
      | error e => rfl
      | ok b1 => cases h2 : l2.mapM g <;> rfl

lemma except_mapM_ok_length (g : α → Except ε β) :
    ∀ (l : List α) (r : List β), l.mapM g = .ok r → r.length = l.length := by
  intro l
  induction l with
  | nil => intro r h; rw [except_mapM_nil] at h; cases h; rfl
  | cons a l ih =>
    intro r h
    rw [except_mapM_cons] at h
    cases ha : g a with
    | error e => rw [ha] at h; cases h
    | ok b =>
      rw [ha] at h
      cases hl : l.mapM g with
      | error e => rw [hl] at h; cases h
      | ok bs =>
        rw [hl] at h
        cases h
        simp [ih bs hl]

lemma except_mapM_ok_of_forall (g : α → Except ε β) :
    ∀ (l : List α), (∀ a ∈ l, ∃ b, g a = .ok b) → ∃ r, l.mapM g = .ok r := by
  intro l
  induction l with
  | nil => intro _; exact ⟨[], rfl⟩
  | cons a l ih =>
    intro h
    obtain ⟨b, hb⟩ := h a (List.mem_cons_self a l)
    obtain ⟨bs, hbs⟩ := ih fun x hx => h x (List.mem_cons_of_mem a hx)
    refine ⟨b :: bs, ?_⟩
    rw [except_mapM_cons, hb, hbs]

lemma chunksOfAux_irrel (c : Nat) :
    ∀ (f1 f2 : Nat) (l : List α), l.length ≤ f1 → l.length ≤ f2 →
      chunksOfAux c f1 l = chunksOfAux c f2 l := by
  intro f1
  induction f1 with
  | zero =>
    intro f2 l h1 _
    have : l = [] := List.eq_nil_of_length_eq_zero (Nat.le_zero.mp h1)
    subst this
    cases f2 <;> rfl
  | succ f1 ih =>
    intro f2 l h1 h2
    cases l with
    | nil => cases f2 <;> rfl
    | cons x xs =>
      cases f2 with
      | zero => simp at h2
      | succ f2 =>
        simp only [chunksOfAux]
        congr 1
        apply ih
        · calc (xs.drop c).length ≤ xs.length := by
                rw [List.length_drop]; omega
            _ ≤ f1 := by simpa using h1
        · calc (xs.drop c).length ≤ xs.length := by
                rw [List.length_drop]; omega
            _ ≤ f2 := by simpa using h2

lemma chunksOf_cons (c : Nat) (x : α) (xs : List α) :
    chunksOf (c + 1) (x :: xs) = (x :: xs.take c) :: chunksOf (c + 1) (xs.drop c) := by
  have h1 : chunksOf (c + 1) (x :: xs)
      = (x :: xs.take c) :: chunksOfAux c xs.length (xs.drop c) := by
    show chunksOfAux c (x :: xs).length (x :: xs) = _
    simp only [List.length_cons, chunksOfAux]
  rw [h1]
  congr 1
  cases h : xs.drop c with
  | nil => simp [chunksOfAux, chunksOf]
  | cons y ys =>
    have hlen : (y :: ys).length ≤ xs.length := by
      have hd := List.length_drop c xs
      rw [h] at hd
      simp only [List.length_cons] at hd ⊢
      omega
    show chunksOfAux c xs.length (y :: ys) = chunksOfAux c (y :: ys).length (y :: ys)
    exact chunksOfAux_irrel c xs.length (y :: ys).length (y :: ys) hlen (le_refl _)

lemma chunksOf_nil_iff (c : Nat) (l : List α) : chunksOf c l = [] ↔ l = [] := by
  cases l with
  | nil => cases c <;> simp [chunksOf]
  | cons x xs =>
    cases c with
    | zero => simp [chunksOf]
    | succ c => rw [chunksOf_cons]; simp

lemma chunksOf_flatten (c : Nat) (l : List α) : (chunksOf (c + 1) l).flatten = l := by
  have H : ∀ (n : Nat) (l : List α), l.length = n → (chunksOf (c + 1) l).flatten = l := by
    intro n
    induction n using Nat.strong_induction_on with
    | _ n ih =>
      intro l hl
      cases l with
      | nil => rfl
      | cons x xs =>
        rw [chunksOf_cons]
        have hlen : (xs.drop c).length < n := by
          simp only [List.length_cons] at hl
          rw [List.length_drop]; omega
        rw [List.flatten_cons, ih (xs.drop c).length hlen (xs.drop c) rfl]
        simp [List.take_append_drop]
  exact H l.length l rfl

lemma chunksOf_mapM (g : β → Except ε γ) (c : Nat) (l : List β) :
    (chunksOf (c + 1) l).mapM (fun ch => ch.mapM g) =
      (l.mapM g).map (chunksOf (c + 1)) := by
  have H : ∀ (n : Nat) (l : List β), l.length = n →
      (chunksOf (c + 1) l).mapM (fun ch => ch.mapM g) =
        (l.mapM g).map (chunksOf (c + 1)) := by
    intro n
    induction n using Nat.strong_induction_on with
    | _ n ih =>
      intro l hl
      cases l with
      | nil => rfl
      | cons x xs =>
        have hl2 : xs.length + 1 = n := by simpa using hl
        have hrec := ih (xs.drop c).length (by rw [List.length_drop]; omega) (xs.drop c) rfl
        have hsplit : xs.mapM g =
            match (xs.take c).mapM g with
            | .error e => .error e
            | .ok u =>
              match (xs.drop c).mapM g with
              | .error e => .error e
              | .ok v => .ok (u ++ v) := by
          conv_lhs => rw [← List.take_append_drop c xs]
          exact except_mapM_append g (xs.take c) (xs.drop c)
        rw [chunksOf_cons, except_mapM_cons, hrec,
          except_mapM_cons g x (xs.take c), except_mapM_cons g x xs, hsplit]
        cases hx : g x with
        | error e => rfl
        | ok b =>
          cases hu : (xs.take c).mapM g with
          | error e => rfl
          | ok u =>
            cases hv : (xs.drop c).mapM g with
            | error e => rfl
            | ok v =>
              show Except.ok ((b :: u) :: chunksOf (c + 1) v)
                  = Except.ok (chunksOf (c + 1) (b :: (u ++ v)))
              have hulen : u.length = (xs.take c).length :=
                except_mapM_ok_length g (xs.take c) u hu
              congr 1
              rw [chunksOf_cons]
              by_cases hc : c ≤ xs.length
              · have hu' : u.length = c := by
                  rw [hulen, List.length_take, inf_eq_min]; omega
                rw [List.take_left' hu', List.drop_left' hu']
              · have hxs : xs.length ≤ c := le_of_not_le hc
                have hdrop : xs.drop c = [] := List.drop_eq_nil_of_le hxs
                have hv' : v = [] := by
                  rw [hdrop, except_mapM_nil] at hv
                  cases hv; rfl
                have hu2 : u.length ≤ c := by
                  rw [hulen, List.length_take, inf_eq_min]; omega
                subst hv'
                rw [List.append_nil, List.take_of_length_le hu2,
                  List.drop_eq_nil_of_le hu2]
  exact H l.length l rfl

/-- Canonical form of the chunked CSV conversion: for every positive
chunk size, the result depends only on the table, not on the chunk
boundaries. -/
lemma convert_csv_big_eq (t : Table) (c : Nat) :
    convert_csv_big t (c + 1) =
      if t.rows = [] then .error (conversionErrorWithFileKw "CSV conversion failed" "")
      else
        match t.rows.mapM (readRowForced t.header (sampleDtypes t)) with
        | .error _ => .error (conversionErrorWithFileKw "CSV conversion failed" "")
        | .ok full =>
            .ok { schema := t.header.zip (sampleDtypes t)
                  rowData := full
                  rows := t.rows.length } := by
  unfold convert_csv_big
  rw [chunksOf_mapM]
  by_cases h : t.rows = []
  · simp [h, chunksOf, List.isEmpty_iff]
  · rw [if_neg h]
    have hne : (chunksOf (c + 1) t.rows).isEmpty = false := by
      rw [Bool.eq_false_iff]
      intro hc
      exact h ((chunksOf_nil_iff (c + 1) t.rows).mp (List.isEmpty_iff.mp hc))
    rw [hne]
    cases hm : t.rows.mapM (readRowForced t.header (sampleDtypes t)) with
    | error e => rfl
    | ok full =>
      simp only [Except.map]
      have hflat : (chunksOf (c + 1) full).flatten = full := chunksOf_flatten c full
      have hsum : ((chunksOf (c + 1) full).map List.length).sum = full.length := by
        rw [← List.length_flatten, hflat]
      have hlen : full.length = t.rows.length :=
        except_mapM_ok_length _ t.rows full hm
      simp [hflat, hsum, hlen]

lemma lexLt_asymm : ∀ a b : List Char, lexLt a b = true → lexLt b a = false := by
  intro a
  induction a with
  | nil => intro b h; cases b with
    | nil => simp [lexLt] at h
    | cons y bs => rfl
  | cons x as ih =>
    intro b h
    cases b with
    | nil => simp [lexLt] at h
    | cons y bs =>
      simp only [lexLt] at h ⊢
      by_cases hxy : x < y
      · rw [if_neg (asymm hxy), if_pos hxy]
      · rw [if_neg hxy] at h
        by_cases hyx : y < x
        · rw [if_pos hyx] at h; cases h
        · rw [if_neg hyx, if_neg hxy]
          rw [if_neg hyx] at h
          exact ih bs h

lemma lexLt_false_trans :
    ∀ a b c : List Char, lexLt a b = false → lexLt b c = false → lexLt a c = false := by
  intro a
  induction a with
  | nil =>
    intro b c hab hbc
    cases b with
    | nil => exact hbc
    | cons y bs => simp [lexLt] at hab
  | cons x as ih =>
    intro b c hab hbc
    cases b with
    | nil =>
      cases c with
      | nil => rfl
      | cons z cs => simp [lexLt] at hbc
    | cons y bs =>
      cases c with
      | nil => rfl
      | cons z cs =>
        simp only [lexLt] at hab hbc ⊢
        by_cases hxy : x < y
        · rw [if_pos hxy] at hab; cases hab
        · rw [if_neg hxy] at hab
          by_cases hyz : y < z
          · rw [if_pos hyz] at hbc; cases hbc
          · rw [if_neg hyz] at hbc
            have hyx : y ≤ x := le_of_not_lt hxy
            have hzy : z ≤ y := le_of_not_lt hyz
            have hzx : z ≤ x := le_trans hzy hyx
            rw [if_neg (not_lt.mpr hzx)]
            by_cases hzxs : z < x
            · rw [if_pos hzxs]
            · rw [if_neg hzxs]
              have hxz : x = z := le_antisymm (le_of_not_lt hzxs) hzx
              have hxy2 : x = y := le_antisymm (hxz ▸ hzy) hyx
              have hyz2 : y = z := by rw [← hxy2, hxz]
              have hnyx : ¬ y < x := by rw [hxy2]; exact lt_irrefl y
              have hnzy : ¬ z < y := by rw [hyz2]; exact lt_irrefl z
              rw [if_neg hnyx] at hab
              rw [if_neg hnzy] at hbc
              exact ih bs cs hab hbc

/-- The descending key relation established by sortDesc: the first
element keeps a key not below the key of the second one. -/
def keyGe (key : α → String) (a b : α) : Prop :=
  pyStrLt (key a) (key b) = false

lemma insertDesc_perm (key : α → String) (x : α) :
    ∀ l : List α, (insertDesc key x l).Perm (x :: l) := by
  intro l
  induction l with
  | nil => exact List.Perm.refl _
  | cons y ys ih =>
    simp only [insertDesc]
    by_cases h : pyStrLt (key x) (key y) = true
    · rw [if_pos h]
      exact (ih.cons y).trans (List.Perm.swap x y ys)
    · rw [if_neg h]

lemma sortDesc_perm (key : α → String) : ∀ l : List α, (sortDesc key l).Perm l := by
  intro l
  induction l with
  | nil => exact List.Perm.refl _
  | cons x xs ih => exact (insertDesc_perm key x (sortDesc key xs)).trans (ih.cons x)

lemma insertDesc_pairwise (key : α → String) (x : α) :
    ∀ l : List α, l.Pairwise (keyGe key) →
      (insertDesc key x l).Pairwise (keyGe key) := by
  intro l
  induction l with
  | nil => intro _; exact List.pairwise_singleton _ x
  | cons y ys ih =>
    intro h
    rw [List.pairwise_cons] at h
    obtain ⟨hy, hys⟩ := h
    simp only [insertDesc]
    by_cases hlt : pyStrLt (key x) (key y) = true
    · rw [if_pos hlt, List.pairwise_cons]
      refine ⟨?_, ih hys⟩
      intro z hz
      rcases List.mem_cons.mp (((insertDesc_perm key x ys).mem_iff).mp hz) with rfl | hzys
      · exact lexLt_asymm _ _ hlt
      · exact hy z hzys
    · rw [if_neg hlt, List.pairwise_cons]
      have hxy : keyGe key x y := Bool.eq_false_iff.mpr hlt
      refine ⟨?_, List.pairwise_cons.mpr ⟨hy, hys⟩⟩
      intro z hz
      rcases List.mem_cons.mp hz with rfl | hzys
      · exact hxy
      · exact lexLt_false_trans _ _ _ hxy (hy z hzys)

lemma sortDesc_pairwise (key : α → String) :
    ∀ l : List α, (sortDesc key l).Pairwise (keyGe key) := by
  intro l
  induction l with
  | nil => exact List.Pairwise.nil
  | cons x xs ih => exact insertDesc_pairwise key x (sortDesc key xs) ih

/- Storage helper lemmas. -/

lemma copyLoop_ok (dir : String) (failSrc : List String) :
    ∀ (arts : List ParquetFile) (st : StoreFs),
      (∀ pf ∈ arts, failSrc.contains pf.path = false) →
      copyLoop dir failSrc arts st =
        .ok { st with copied := st.copied ++ arts.map fun pf => dir ++ "/" ++ pf.filename } := by
  intro arts
  induction arts with
  | nil => intro st _; simp [copyLoop]
  | cons pf rest ih =>
    intro st h
    have hpf : failSrc.contains pf.path = false := h pf (List.mem_cons_self pf rest)
    simp only [copyLoop, hpf, Bool.false_eq_true, if_neg]
    rw [ih _ fun q hq => h q (List.mem_cons_of_mem pf hq)]
    simp

lemma copyLoop_error (dir : String) (failSrc : List String) :
    ∀ (arts : List ParquetFile) (st : StoreFs) (e : PyExc) (st' : StoreFs),
      copyLoop dir failSrc arts st = .error (e, st') →
      e = .storageError "failed to store parquet file" ∧
      st'.dirs = st.dirs ∧ st'.manifests = st.manifests ∧
      ∃ k, st'.copied = st.copied ++ ((arts.take k).map fun pf => dir ++ "/" ++ pf.filename) := by
  intro arts
  induction arts with
  | nil => intro st e st' h; cases h
  | cons pf rest ih =>
    intro st e st' h
    simp only [copyLoop] at h
    by_cases hpf : failSrc.contains pf.path = true
    · rw [if_pos hpf] at h
      cases h
      exact ⟨rfl, rfl, rfl, 0, by simp⟩
    · rw [if_neg hpf] at h
      obtain ⟨he, hd, hm, k, hc⟩ := ih _ e st' h
      refine ⟨he, hd, hm, k + 1, ?_⟩
      rw [hc]
      simp [List.take_cons, List.append_assoc]

lemma copyLoop_isOk_iff (dir : String) (failSrc : List String) :
    ∀ (arts : List ParquetFile) (st : StoreFs),
      (∃ st2, copyLoop dir failSrc arts st = .ok st2) ↔
        (∀ pf ∈ arts, failSrc.contains pf.path = false) := by
  intro arts
  induction arts with
  | nil => intro st; simp [copyLoop]
  | cons pf rest ih =>
    intro st
    constructor
    · rintro ⟨st2, h⟩
      simp only [copyLoop] at h
      by_cases hpf : failSrc.contains pf.path = true
      · rw [if_pos hpf] at h; cases h
      · rw [if_neg hpf] at h
        intro q hq
        rcases List.mem_cons.mp hq with rfl | hq2
        · exact Bool.eq_false_iff.mpr hpf
        · exact ((ih _).mp ⟨st2, h⟩) q hq2
    · intro h
      have hpf := h pf (List.mem_cons_self pf rest)
      refine ⟨_, copyLoop_ok dir failSrc (pf :: rest) st h⟩

/- Coordinator helper lemmas. -/

lemma partitionFiles_perm (existsOut : List String) (force : Bool) :
    ∀ files : List DataFile,
      ((partitionFiles existsOut force files).1 ++
        (partitionFiles existsOut force files).2.1 ++
        (partitionFiles existsOut force files).2.2).Perm files := by
  intro files
  induction files with
  | nil => exact List.Perm.refl _
  | cons f fs ih =>
    simp only [partitionFiles]
    by_cases h1 : is_supported_format f.format = true
    · simp only [h1, Bool.not_true, Bool.false_eq_true, if_neg]
      by_cases h2 : (!force && existsOut.contains (outputName f.filename)) = true
      · rw [if_pos h2]
        refine List.Perm.trans ?_ (ih.cons f)
        exact List.perm_middle
      · rw [if_neg h2]
        exact ih.cons f
    · rw [Bool.not_eq_true] at h1
      simp only [h1, Bool.not_false, if_pos]
      refine List.Perm.trans ?_ (ih.cons f)
      rw [List.append_assoc, List.cons_append]
      refine List.Perm.trans List.perm_middle ?_
      rw [← List.append_assoc]

lemma partitionFiles_mem (existsOut : List String) (force : Bool) :
    ∀ files : List DataFile,
      (∀ f ∈ (partitionFiles existsOut force files).1,
        is_supported_format f.format = true ∧
          (force = true ∨ existsOut.contains (outputName f.filename) = false)) ∧
      (∀ f ∈ (partitionFiles existsOut force files).2.1,
        is_supported_format f.format = false) ∧
      (∀ f ∈ (partitionFiles existsOut force files).2.2,
        is_supported_format f.format = true ∧ force = false ∧
          existsOut.contains (outputName f.filename) = true) := by
  intro files
  induction files with
  | nil =>
    refine ⟨?_, ?_, ?_⟩ <;> intro f h <;> simp [partitionFiles] at h
  | cons f fs ih =>
    obtain ⟨ihs, ihu, iha⟩ := ih
    simp only [partitionFiles]
    by_cases h1 : is_supported_format f.format = true
    · simp only [h1, Bool.not_true, Bool.false_eq_true, if_neg]
      by_cases h2 : (!force && existsOut.contains (outputName f.filename)) = true
      · rw [if_pos h2]
        rw [Bool.and_eq_true, Bool.not_eq_eq_eq_not, Bool.not_true] at h2
        refine ⟨ihs, ihu, ?_⟩
        intro g hg
        rcases List.mem_cons.mp hg with rfl | hg2
        · exact ⟨h1, h2.1, h2.2⟩
        · exact iha g hg2
      · rw [if_neg h2]
        refine ⟨?_, ihu, iha⟩
        intro g hg
        rcases List.mem_cons.mp hg with rfl | hg2
        · refine ⟨h1, ?_⟩
          have h2' : (!force && existsOut.contains (outputName g.filename)) = false := by
            rwa [Bool.not_eq_true] at h2
          cases hforce : force with
          | true => exact Or.inl rfl
          | false =>
            right
            by_contra hcon
            rw [Bool.not_eq_false] at hcon
            rw [hforce, Bool.not_false, Bool.true_and, hcon] at h2'
            cases h2'
        · exact ihs g hg2
    · rw [Bool.not_eq_true] at h1
      simp only [h1, Bool.not_false, if_pos]
      refine ⟨ihs, ?_, iha⟩
      intro g hg
      rcases List.mem_cons.mp hg with rfl | hg2
      · exact h1
      · exact ihu g hg2

lemma convertSeq_middle (outcome : DataFile → Except PyExc ParquetFile)
    (f : DataFile) (e : PyExc) (hf : outcome f = .error e)
    (hc : caughtByBatchExcept e = true) :
    ∀ l1 l2 : List DataFile,
      convertSeq outcome (l1 ++ f :: l2) = convertSeq outcome (l1 ++ l2) := by
  intro l1
  induction l1 with
  | nil =>
    intro l2
    simp only [List.nil_append, convertSeq, hf, hc, if_pos]
  | cons x l1 ih =>
    intro l2
    simp only [List.cons_append, convertSeq, List.append_eq]
    rw [ih l2]

lemma convertSeq_all_caught (outcome : DataFile → Except PyExc ParquetFile) :
    ∀ l : List DataFile,
      (∀ f ∈ l, ∀ e, outcome f = .error e → caughtByBatchExcept e = true) →
      convertSeq outcome l = .ok (l.filterMap fun f => (outcome f).toOption) := by
  intro l
  induction l with
  | nil => intro _; rfl
  | cons f fs ih =>
    intro h
    have hrest := ih fun g hg => h g (List.mem_cons_of_mem f hg)
    cases hf : outcome f with
    | ok a =>
      simp only [convertSeq, hf, hrest, List.filterMap_cons]
      rfl
    | error e =>
      have hcaught := h f (List.mem_cons_self f fs) e hf
      simp only [convertSeq, hf, hcaught, if_pos, hrest, List.filterMap_cons]
      rfl

lemma getD_map_range (f : Nat → β) (n j : Nat) (d : β) :
    ((List.range n).map f).getD j d = if j < n then f j else d := by
  by_cases h : j < n
  · rw [if_pos h, List.getD_eq_getElem?_getD, List.getElem?_map, List.getElem?_range h]
    rfl
  · rw [if_neg h, List.getD_eq_getElem?_getD, List.getElem?_eq_none]
    · rfl
    · simp
      omega

/-- Evaluation of complete_download in terms of propositional conditions
on the file states. -/
lemma complete_download_eq (ds : Dataset) :
    complete_download ds =
      if ∀ f ∈ ds.files, f.downloadStatus = DownloadStatus.completed ∨
          f.downloadStatus = DownloadStatus.skipped
      then { ds with status := .downloaded }
      else if ∃ f ∈ ds.files, f.downloadStatus = DownloadStatus.failed then
        { ds with status := .failed }
      else ds := by
  unfold complete_download
  by_cases hA : ∀ f ∈ ds.files, f.downloadStatus = DownloadStatus.completed ∨
      f.downloadStatus = DownloadStatus.skipped
  · have hb : (ds.files.all fun f => decide (f.downloadStatus = DownloadStatus.completed ∨
        f.downloadStatus = DownloadStatus.skipped)) = true := by
      rw [List.all_eq_true]
      intro f hf
      exact decide_eq_true (hA f hf)
    rw [if_pos hA]
    simp only [hb, if_pos]
  · have hb : (ds.files.all fun f => decide (f.downloadStatus = DownloadStatus.completed ∨
        f.downloadStatus = DownloadStatus.skipped)) = false := by
      rw [Bool.eq_false_iff]
      intro hc
      rw [List.all_eq_true] at hc
      exact hA fun f hf => of_decide_eq_true (hc f hf)
    rw [if_neg hA]
    simp only [hb, Bool.false_eq_true, if_neg]
    by_cases hB : ∃ f ∈ ds.files, f.downloadStatus = DownloadStatus.failed
    · have hb2 : (ds.files.any fun f => decide (f.downloadStatus = DownloadStatus.failed))
          = true := by
        rw [List.any_eq_true]
        obtain ⟨f, hf, hst⟩ := hB
        exact ⟨f, hf, decide_eq_true hst⟩
      rw [if_pos hB]
      simp only [hb, Bool.false_eq_true, if_neg, hb2, if_pos]
      rfl
    · have hb2 : (ds.files.any fun f => decide (f.downloadStatus = DownloadStatus.failed))
          = false := by
        rw [Bool.eq_false_iff]
        intro hc
        rw [List.any_eq_true] at hc
        obtain ⟨f, hf, hst⟩ := hc
        exact hB ⟨f, hf, of_decide_eq_true hst⟩
      rw [if_neg hB]
      simp only [hb, hb2, Bool.false_eq_true, if_neg]
      rfl

lemma except_map_error (f : α → β) (x : Except γ α) (e : γ)
    (h : x.map f = .error e) : x = .error e := by
  cases x with
  | ok a => injection h
  | error e2 =>
    injection h with h2
    rw [h2]

/-- Every failure of the chunked CSV branch is the TypeError raised by the
ConversionError(message, file=...) construction in its handler. -/
lemma convert_csv_big_error_shape (t : Table) (cs : Nat) (e : PyExc)
    (h : convert_csv_big t cs = .error e) : e = .typeErrorNoKw "ConversionError" := by
  unfold convert_csv_big at h
  split at h
  · injection h with h2
    exact h2.symm
  · split at h
    · injection h with h2
      exact h2.symm
    · injection h

/-- Every failure of _convert_csv is the TypeError raised by the
ConversionError(message, file=...) construction in its handler. -/
lemma convert_csv_error_shape (fileSize : Nat) (t : Table) (cs : Nat) (e : PyExc)
    (h : convert_csv fileSize t cs = .error e) : e = .typeErrorNoKw "ConversionError" := by
  unfold convert_csv at h
  split at h
  · exact convert_csv_big_error_shape t cs e h
  · injection h

/-- Every failure of the chunked TSV branch is the TypeError raised by the
ConversionError(message, file=...) construction in its handler. -/
lemma convert_tsv_big_error_shape (t : Table) (cs : Nat) (e : PyExc)
    (h : convert_tsv_big t cs = .error e) : e = .typeErrorNoKw "ConversionError" := by
  unfold convert_tsv_big at h
  split at h
  · injection h with h2
    exact h2.symm
  · injection h
  · injection h with h2
    exact h2.symm

/-- Every failure of _convert_tsv is the TypeError raised by the
ConversionError(message, file=...) construction in its handler. -/
lemma convert_tsv_error_shape (fileSize : Nat) (t : Table) (cs : Nat) (e : PyExc)
    (h : convert_tsv fileSize t cs = .error e) : e = .typeErrorNoKw "ConversionError" := by
  unfold convert_tsv at h
  split at h
  · exact convert_tsv_big_error_shape t cs e h
  · injection h

/-- Shape of every failure of convert_file: an unsupported format fails
with the UnsupportedFormatError raised by the leading format check, and a
supported format can only fail with the TypeError raised by the
ConversionError(message, file=...) construction of a handler or, for
PARQUET, the raw OS error escaping the pass-through copy that runs
outside the try block. In particular no failure is ever an actual
ConversionError. -/
lemma convert_file_error_shape (fs : List (String × FsEntry)) (cs : Nat)
    (outDir : String) (df : DataFile) (e : PyExc)
    (h : convert_file fs cs outDir df = .error e) :
    (is_supported_format df.format = false ∧
      e = .unsupportedFormatError "unsupported file format") ∨
    (is_supported_format df.format = true ∧
      (e = .typeErrorNoKw "ConversionError" ∨ e = .osError "FileNotFoundError")) := by
  unfold convert_file at h
  cases hf : df.format with
  | csv =>
    rw [hf] at h
    rw [if_neg (by decide), if_neg (by decide)] at h
    right
    refine ⟨rfl, ?_⟩
    cases hl : fsLookup fs df.path with
    | none =>
      rw [hl] at h
      left
      injection h with h2
      exact h2.symm
    | some entry =>
      rw [hl] at h
      cases entry with
      | tableFile t =>
        left
        exact convert_csv_error_shape df.size t cs e (except_map_error _ _ _ h)
      | parquetSrc r sch =>
        left
        injection h with h2
        exact h2.symm
      | binaryFile =>
        left
        injection h with h2
        exact h2.symm
  | tsv =>
    rw [hf] at h
    rw [if_neg (by decide), if_neg (by decide)] at h
    right
    refine ⟨rfl, ?_⟩
    cases hl : fsLookup fs df.path with
    | none =>
      rw [hl] at h
      left
      injection h with h2
      exact h2.symm
    | some entry =>
      rw [hl] at h
      cases entry with
      | tableFile t =>
        left
        exact convert_tsv_error_shape df.size t cs e (except_map_error _ _ _ h)
      | parquetSrc r sch =>
        left
        injection h with h2
        exact h2.symm
      | binaryFile =>
        left
        injection h with h2
        exact h2.symm
  | json =>
    rw [hf] at h
    rw [if_neg (by decide), if_neg (by decide)] at h
    right
    refine ⟨rfl, ?_⟩
    cases hl : fsLookup fs df.path with
    | none =>
      rw [hl] at h
      left
      injection h with h2
      exact h2.symm
    | some entry =>
      rw [hl] at h
      cases entry with
      | tableFile t => injection h
      | parquetSrc r sch =>
        left
        injection h with h2
        exact h2.symm
      | binaryFile =>
        left
        injection h with h2
        exact h2.symm
  | excel =>
    rw [hf] at h
    rw [if_neg (by decide), if_neg (by decide)] at h
    right
    refine ⟨rfl, ?_⟩
    cases hl : fsLookup fs df.path with
    | none =>
      rw [hl] at h
      left
      injection h with h2
      exact h2.symm
    | some entry =>
      rw [hl] at h
      cases entry with
      | tableFile t => injection h
      | parquetSrc r sch =>
        left
        injection h with h2
        exact h2.symm
      | binaryFile =>
        left
        injection h with h2
        exact h2.symm
  | parquet =>
    rw [hf] at h
    rw [if_neg (by decide), if_pos (by decide)] at h
    right
    refine ⟨rfl, ?_⟩
    cases hl : fsLookup fs df.path with
    | none =>
      rw [hl] at h
      right
      injection h with h2
      exact h2.symm
    | some entry =>
      rw [hl] at h
      cases entry with
      | tableFile t =>
        right
        injection h with h2
        exact h2.symm
      | parquetSrc r sch => injection h
      | binaryFile =>
        right
        injection h with h2
        exact h2.symm
  | avro =>
    rw [hf] at h
    rw [if_pos (by decide)] at h
    left
    refine ⟨rfl, ?_⟩
    injection h with h2
    exact h2.symm
  | orc =>
    rw [hf] at h
    rw [if_pos (by decide)] at h
    left
    refine ⟨rfl, ?_⟩
    injection h with h2
    exact h2.symm
  | xml =>
    rw [hf] at h
    rw [if_pos (by decide)] at h
    left
    refine ⟨rfl, ?_⟩
    injection h with h2
    exact h2.symm
  | html =>
    rw [hf] at h
    rw [if_pos (by decide)] at h
    left
    refine ⟨rfl, ?_⟩
    injection h with h2
    exact h2.symm
  | txt =>
    rw [hf] at h
    rw [if_pos (by decide)] at h
    left
    refine ⟨rfl, ?_⟩
    injection h with h2
    exact h2.symm
  | other =>
    rw [hf] at h
    rw [if_pos (by decide)] at h
    left
    refine ⟨rfl, ?_⟩
    injection h with h2
    exact h2.symm

/- ------------------------------------------------------------------
Claim theorems.
------------------------------------------------------------------ -/

/-- C7: detect_format is a pure mapping of the lowercased extension:
.csv to CSV, .json/.jsonl to JSON, .xlsx/.xls to EXCEL, .tsv to TSV,
.parquet to PARQUET, and every extension outside the recognized set to
OTHER without error; is_supported_format holds exactly for CSV, JSON,
EXCEL, TSV and PARQUET, so OTHER is unsupported. -/
theorem detect_format_spec_c7 (p : String) :
    (pyToLower (pySuffix p) = ".csv" → detect_format p = .csv) ∧
    (pyToLower (pySuffix p) = ".json" ∨ pyToLower (pySuffix p) = ".jsonl" →
      detect_format p = .json) ∧
    (pyToLower (pySuffix p) = ".xlsx" ∨ pyToLower (pySuffix p) = ".xls" →
      detect_format p = .excel) ∧
    (pyToLower (pySuffix p) = ".tsv" → detect_format p = .tsv) ∧
    (pyToLower (pySuffix p) = ".parquet" → detect_format p = .parquet) ∧
    (pyToLower (pySuffix p) ∉ ([".csv", ".json", ".jsonl", ".xls", ".xlsx", ".tsv",
        ".parquet", ".avro", ".orc", ".xml", ".svg", ".html", ".htm", ".txt", ".md",
        ".rst"] : List String) →
      detect_format p = .other) ∧
    (∀ f : FileFormat, is_supported_format f = true ↔
      f = .csv ∨ f = .json ∨ f = .excel ∨ f = .tsv ∨ f = .parquet) ∧
    is_supported_format .other = false := by
  refine ⟨?_, ?_, ?_, ?_, ?_, ?_, ?_, rfl⟩
  · intro h; simp [detect_format, h]
  · rintro (h | h) <;> simp [detect_format, h]
  · rintro (h | h) <;> simp [detect_format, h]
  · intro h; simp [detect_format, h]
  · intro h; simp [detect_format, h]
  · intro h
    simp only [List.mem_cons, List.not_mem_nil, or_false, not_or] at h
    obtain ⟨n1, n2, n3, n4, n5, n6, n7, n8, n9, n10, n11, n12, n13, n14, n15, n16⟩ := h
    simp [detect_format, n1, n2, n3, n4, n5, n6, n7, n8, n9, n10, n11, n12, n13, n14,
      n15, n16]
  · intro f; cases f <;> simp [is_supported_format]

/-- Witness for C7 at concrete paths: an uppercase .CSV extension is
detected as CSV, an unrecognized extension yields OTHER, and OTHER is
unsupported. -/
theorem detect_format_spec_c7_witness :
    detect_format "data/Sales.CSV" = .csv ∧ detect_format "a/b.xyz" = .other ∧
      is_supported_format .other = false := by
  have h1 := detect_format_spec_c7 "data/Sales.CSV"
  have h2 := detect_format_spec_c7 "a/b.xyz"
  exact ⟨h1.1 (by decide), h2.2.2.2.2.2.1 (by decide), h2.2.2.2.2.2.2.2⟩

/-- C6 counterexample: complete_download on a dataset already marked
DOWNLOADED whose only file is IN_PROGRESS leaves the status DOWNLOADED,
refuting the only-if direction of the claim; and update_file_progress
with a regressed progress breaks the invariant that a DOWNLOADED dataset
has only terminal files, refuting preservation by every tracker
operation. -/
theorem complete_download_c6_cex :
    ((complete_download dsStale).status = .downloaded
      ∧ ¬ terminalDS DownloadStatus.inProgress)
    ∧ (downloadedInv dsDone
        ∧ ¬ downloadedInv (update_file_progress dsDone "f.csv" 50)) := by
  decide

/-- C6 (amended): after complete_download the files are untouched and the
status is DOWNLOADED when every file is COMPLETED or SKIPPED, FAILED when
some file is FAILED, and unchanged otherwise; consequently the invariant
that a DOWNLOADED dataset has only terminal files is preserved by
complete_download whenever it held before the call. -/
theorem complete_download_spec_c6 (ds : Dataset) :
    (complete_download ds).files = ds.files ∧
    ((∀ f ∈ ds.files, f.downloadStatus = DownloadStatus.completed ∨
        f.downloadStatus = DownloadStatus.skipped) →
      (complete_download ds).status = .downloaded) ∧
    ((∃ f ∈ ds.files, f.downloadStatus = DownloadStatus.failed) →
      (complete_download ds).status = .failed) ∧
    (¬ (∀ f ∈ ds.files, f.downloadStatus = DownloadStatus.completed ∨
        f.downloadStatus = DownloadStatus.skipped) →
      ¬ (∃ f ∈ ds.files, f.downloadStatus = DownloadStatus.failed) →
      (complete_download ds).status = ds.status) ∧
    (downloadedInv ds → downloadedInv (complete_download ds)) := by
  rw [complete_download_eq]
  refine ⟨?_, ?_, ?_, ?_, ?_⟩
  · split_ifs <;> rfl
  · intro h; rw [if_pos h]
  · intro h
    have hnot : ¬ ∀ f ∈ ds.files, f.downloadStatus = DownloadStatus.completed ∨
        f.downloadStatus = DownloadStatus.skipped := by
      intro hall
      obtain ⟨f, hf, hst⟩ := h
      rcases hall f hf with hc | hs
      · rw [hst] at hc; cases hc
      · rw [hst] at hs; cases hs
    rw [if_neg hnot, if_pos h]
  · intro h1 h2; rw [if_neg h1, if_neg h2]
  · intro hinv
    unfold downloadedInv at hinv ⊢
    split_ifs with hall hfail
    · intro _ f hf
      rcases hall f hf with hc | hs
      · exact Or.inl hc
      · exact Or.inr (Or.inr hs)
    · intro hst
      exact absurd hst (by decide)
    · exact hinv

/-- Witness for C6 at a concrete dataset whose single file is COMPLETED:
complete_download marks it DOWNLOADED and the invariant holds
afterwards. -/
theorem complete_download_spec_c6_witness :
    (complete_download dsFresh).status = .downloaded ∧
    downloadedInv (complete_download dsFresh) := by
  have h := complete_download_spec_c6 dsFresh
  exact ⟨h.2.1 (by decide), h.2.2.2.2 (by decide)⟩

/-- C10: store_parquet_files called with an empty artifact list returns
the empty string and leaves the filesystem state unchanged: no directory
is resolved or created, nothing is copied, no manifest is written. -/
theorem store_parquet_files_empty_c10 (baseDir : String) (failSrc : List String)
    (manifestFails : Bool) (dsName ts : String) (st : StoreFs) :
    store_parquet_files baseDir failSrc manifestFails dsName ts [] st = .ok ("", st) := rfl

/-- C2, code bug. The unsupported-format half of the claim holds: for
every filesystem state, chunk size, output directory and file,
convert_file fails with UnsupportedFormatError exactly when the format is
unsupported, and the check precedes every write. The ConversionError half
is refuted by the code: no run of convert_file on any input ever produces
a ConversionError, because every handler runs the construction
ConversionError(message, file=...), which itself raises TypeError — a
missing source for a supported non-PARQUET format surfaces as that
TypeError, and a missing PARQUET source escapes as the raw OS error since
the pass-through copy runs before the try/except block. -/
theorem convert_file_c2_bug :
    (∀ fs cs outDir df, is_supported_format df.format = false →
      convert_file fs cs outDir df
        = .error (.unsupportedFormatError "unsupported file format")) ∧
    (∀ fs cs outDir df m, is_supported_format df.format = true →
      convert_file fs cs outDir df ≠ .error (.unsupportedFormatError m)) ∧
    (∀ fs cs outDir df m,
      convert_file fs cs outDir df ≠ .error (.conversionError m)) ∧
    (∀ cs outDir df, is_supported_format df.format = true → df.format ≠ .parquet →
      convert_file [] cs outDir df = .error (.typeErrorNoKw "ConversionError")) ∧
    (∀ cs outDir df, df.format = .parquet →
      convert_file [] cs outDir df = .error (.osError "FileNotFoundError")) := by
  refine ⟨?_, ?_, ?_, ?_, ?_⟩
  · intro fs cs outDir df hs
    unfold convert_file
    rw [if_pos (by simp [hs])]
  · intro fs cs outDir df m hs h
    rcases convert_file_error_shape fs cs outDir df _ h with ⟨hf2, _⟩ | ⟨_, he | he⟩
    · exact Bool.noConfusion (hs.symm.trans hf2)
    · injection he
    · injection he
  · intro fs cs outDir df m h
    rcases convert_file_error_shape fs cs outDir df _ h with ⟨_, he⟩ | ⟨_, he | he⟩ <;>
      injection he
  · intro cs outDir df hs hp
    unfold convert_file
    rw [if_neg (by simp [hs]), if_neg hp]
    rfl
  · intro cs outDir df hp
    unfold convert_file
    rw [if_neg (by simp [hp, is_supported_format]), if_pos hp]
    rfl

/-- Witness for C2 at concrete inputs: a CSV file with a missing source
raises TypeError (the failed ConversionError construction) instead of
ConversionError, a PARQUET file with a missing source raises the raw OS
error unwrapped, and an unsupported format raises
UnsupportedFormatError. -/
theorem convert_file_c2_bug_witness :
    convert_file [] 100000 "out"
        { filename := "data.csv", format := .csv, size := 10,
          path := "/missing/data.csv", downloadStatus := .completed,
          downloadProgress := 100 }
      = .error (.typeErrorNoKw "ConversionError") ∧
    convert_file [] 100000 "out"
        { filename := "data.parquet", format := .parquet, size := 10,
          path := "/missing/data.parquet", downloadStatus := .completed,
          downloadProgress := 100 }
      = .error (.osError "FileNotFoundError") ∧
    convert_file [] 100000 "out"
        { filename := "data.xyz", format := .other, size := 10,
          path := "/p/data.xyz", downloadStatus := .completed,
          downloadProgress := 100 }
      = .error (.unsupportedFormatError "unsupported file format") :=
  ⟨convert_file_c2_bug.2.2.2.1 100000 "out"
      { filename := "data.csv", format := .csv, size := 10,
        path := "/missing/data.csv", downloadStatus := .completed,
        downloadProgress := 100 } (by decide) (by decide),
   convert_file_c2_bug.2.2.2.2 100000 "out"
      { filename := "data.parquet", format := .parquet, size := 10,
        path := "/missing/data.parquet", downloadStatus := .completed,
        downloadProgress := 100 } (by decide),
   convert_file_c2_bug.1 [] 100000 "out"
      { filename := "data.xyz", format := .other, size := 10,
        path := "/p/data.xyz", downloadStatus := .completed,
        downloadProgress := 100 } (by decide)⟩

/-- C4 evaluation at the failing input: on the same parsed three-row
content, above the 100 MiB threshold with chunk size 2, the CSV path
converts successfully (one output, summed row count), while the TSV path
raises, because its chunked branch calls DataFrame.to_parquet with
append=True for the second chunk, which the pyarrow engine rejects, and
the handler then fails constructing ConversionError with the file
keyword. -/
theorem convert_tsv_c4_bug :
    convert_csv 104857601 { header := ["a"], rows := [["1"], ["2"], ["3"]] } 2
      = .ok { schema := [("a", .int64)],
              rowData := [[.pint 1], [.pint 2], [.pint 3]], rows := 3 } ∧
    convert_tsv 104857601 { header := ["a"], rows := [["1"], ["2"], ["3"]] } 2
      = .error (.typeErrorNoKw "ConversionError") :=
  ⟨rfl, rfl⟩

/-- Unrolling the retry loop across m leading in-set failures: the loop
sleeps once per failed attempt, with geometrically growing delay, and
continues from attempt k + m with the remaining budget. -/
lemma retryGo_shift (att : Nat → Attempt α) (jit : Nat → ℚ) (b : ℚ) :
    ∀ (m k lt : Nat) (d : ℚ),
      (∀ i, i < m → ∃ id, att (k + i) = .exc true id) → m ≤ lt →
      retryGo att jit b k lt d =
        ((retryGo att jit b (k + m) (lt - m) (d * b ^ m)).1,
          ((List.range m).map fun i => d * b ^ i * (1 + jit (k + i))) ++
            (retryGo att jit b (k + m) (lt - m) (d * b ^ m)).2) := by
  intro m
  induction m with
  | zero =>
    intro k lt d _ _
    simp
  | succ m ih =>
    intro k lt d hfail hle
    obtain ⟨id0, h0⟩ := hfail 0 (Nat.succ_pos m)
    rw [Nat.add_zero] at h0
    obtain ⟨lt1, rfl⟩ : ∃ lt1, lt = lt1 + 1 := ⟨lt - 1, by omega⟩
    have hstep : retryGo att jit b k (lt1 + 1) d =
        ((retryGo att jit b (k + 1) lt1 (d * b)).1,
          d * (1 + jit k) :: (retryGo att jit b (k + 1) lt1 (d * b)).2) := by
      rw [retryGo, h0]
      simp
    rw [hstep]
    have hrec := ih (k + 1) lt1 (d * b)
      (fun i hi => by
        obtain ⟨idp, hp⟩ := hfail (i + 1) (by omega)
        exact ⟨idp, by rw [show k + 1 + i = k + (i + 1) from by omega]; exact hp⟩)
      (by omega)
    rw [hrec]
    have hk : k + 1 + m = k + (m + 1) := by omega
    have hlt : lt1 - m = lt1 + 1 - (m + 1) := by omega
    have hd : d * b * b ^ m = d * b ^ (m + 1) := by
      rw [pow_succ]; ring
    rw [hk, hlt, hd]
    refine congrArg _ ?_
    rw [List.range_succ_eq_map, List.map_cons, List.map_map, List.cons_append]
    refine congrArg₂ _ ?_ (congrArg₂ _ ?_ rfl)
    · rw [pow_zero, mul_one, Nat.add_zero]
    · refine List.map_congr_left ?_
      intro i _
      show d * b * b ^ i * (1 + jit (k + 1 + i)) = d * b ^ (i + 1) * (1 + jit (k + (i + 1)))
      rw [show k + 1 + i = k + (i + 1) from by omega, pow_succ]
      ring

/-- C9: for the retry wrapper, an out-of-set exception propagates
immediately with no further retry; in-set exceptions cause sleeps of
delay times backoff to the attempt index times one plus the jitter draw,
then a retry, up to the configured try count; a success after the
failures returns the value unchanged; after the tries are exhausted the
exception of the last attempt propagates; and whenever the jitter draws
satisfy their contract, every sleep lies within the plus-or-minus jitter
band around the nominal backoff delay. -/
theorem retry_spec_c9 (att : Nat → Attempt α) (jit : Nat → ℚ) (tries : Nat)
    (delay backoff jitter : ℚ) (m : Nat)
    (hfail : ∀ i, i < m → ∃ id, att i = .exc true id) :
    (∀ a, m ≤ tries → att m = .val a →
      retryRun att jit tries delay backoff =
        (.ok a, (List.range m).map fun i => delay * backoff ^ i * (1 + jit i))) ∧
    (∀ id, m ≤ tries → att m = .exc false id →
      retryRun att jit tries delay backoff =
        (.error (false, id),
          (List.range m).map fun i => delay * backoff ^ i * (1 + jit i))) ∧
    (∀ id, m = tries → att tries = .exc true id →
      retryRun att jit tries delay backoff =
        (.error (true, id),
          (List.range tries).map fun i => delay * backoff ^ i * (1 + jit i))) ∧
    (0 ≤ delay → 0 ≤ backoff → (∀ i, |jit i| ≤ jitter) → ∀ i, i < m →
      delay * backoff ^ i * (1 - jitter) ≤ delay * backoff ^ i * (1 + jit i) ∧
        delay * backoff ^ i * (1 + jit i) ≤ delay * backoff ^ i * (1 + jitter)) := by
  have hshift : ∀ hm : ∀ i, i < m → ∃ id, att (0 + i) = .exc true id, m ≤ tries →
      retryRun att jit tries delay backoff =
        ((retryGo att jit backoff (0 + m) (tries - m) (delay * backoff ^ m)).1,
          ((List.range m).map fun i => delay * backoff ^ i * (1 + jit (0 + i))) ++
            (retryGo att jit backoff (0 + m) (tries - m) (delay * backoff ^ m)).2) :=
    fun hm hle => retryGo_shift att jit backoff m 0 tries delay hm hle
  have hm0 : ∀ i, i < m → ∃ id, att (0 + i) = .exc true id := by
    intro i hi
    rw [Nat.zero_add]
    exact hfail i hi
  have hmap : ((List.range m).map fun i => delay * backoff ^ i * (1 + jit (0 + i))) =
      (List.range m).map fun i => delay * backoff ^ i * (1 + jit i) := by
    refine List.map_congr_left ?_
    intro i _
    rw [Nat.zero_add]
  refine ⟨?_, ?_, ?_, ?_⟩
  · intro a hle hval
    rw [hshift hm0 hle, hmap]
    simp only [Nat.zero_add]
    rw [retryGo, hval]
    simp
  · intro id hle hexc
    rw [hshift hm0 hle, hmap]
    simp only [Nat.zero_add]
    rw [retryGo, hexc]
    simp
  · intro id hmt hexc
    subst hmt
    rw [hshift hm0 (le_refl m), hmap]
    simp only [Nat.zero_add]
    rw [retryGo, hexc]
    simp
  · intro hd hb hj i _
    have ht : 0 ≤ delay * backoff ^ i := mul_nonneg hd (pow_nonneg hb i)
    obtain ⟨hlo, hhi⟩ := abs_le.mp (hj i)
    constructor
    · exact mul_le_mul_of_nonneg_left (by linarith) ht
    · exact mul_le_mul_of_nonneg_left (by linarith) ht

/-- Witness for C9: a callable that fails twice with in-set exceptions
and then returns 42, with zero jitter, initial delay 1 and backoff 2,
returns 42 after sleeping 1 second and then 2 seconds. -/
theorem retry_spec_c9_witness :
    retryRun attDemo jitDemo 3 1 2 = (.ok 42, [1, 2]) := by
  have h := (retry_spec_c9 attDemo jitDemo 3 1 2 (1 / 10) 2
      (fun i hi => ⟨i, by simp [attDemo, hi]⟩)).1 42 (by omega) (by simp [attDemo])
  rw [h]
  norm_num [jitDemo, List.range_succ]

/-- Storing an empty artifact list returns the empty string and leaves
the state untouched. -/
lemma store_parquet_files_nil (baseDir : String) (failSrc : List String)
    (manifestFails : Bool) (dsName ts : String) (st : StoreFs) :
    store_parquet_files baseDir failSrc manifestFails dsName ts [] st = .ok ("", st) := rfl

/-- C5 counterexample: with two artifacts and a failing second copy,
store_parquet_files raises StorageError but the first artifact remains
copied under the dataset directory — a nonempty proper subset of the
artifacts is left stored (only the manifest is guaranteed absent), so
the operation is not all-or-nothing in the sense of the claim. -/
theorem store_parquet_files_c5_cex :
    store_parquet_files "data" ["srcB"] false "ds" "20240101" [artStoreA, artStoreB]
        { dirs := [], copied := [], manifests := [] }
      = .error (.storageError "failed to store parquet file",
          { dirs := ["data/kaggle/ds_20240101"],
            copied := ["data/kaggle/ds_20240101/a.parquet"], manifests := [] }) ∧
    (["data/kaggle/ds_20240101/a.parquet"] : List String) ≠ [] ∧
    ([artStoreA, artStoreB].map fun pf => "data/kaggle/ds_20240101/" ++ pf.filename)
      ≠ ["data/kaggle/ds_20240101/a.parquet"] := by
  refine ⟨rfl, by decide, by decide⟩

/-- C5 (amended): store_parquet_files with a nonempty artifact list copies
every artifact and then writes the manifest when nothing fails; when a
copy or the manifest write fails, the call raises StorageError and no
manifest is written, but the copies made before the failure remain in
place (a prefix of the artifact list); and the call fails exactly when
some copy fails or the manifest write fails. -/
theorem store_parquet_files_c5 (baseDir : String) (failSrc : List String)
    (manifestFails : Bool) (dsName ts : String) (arts : List ParquetFile) (st : StoreFs) :
    (arts ≠ [] → (∀ pf ∈ arts, failSrc.contains pf.path = false) → manifestFails = false →
      store_parquet_files baseDir failSrc manifestFails dsName ts arts st =
        .ok (get_dataset_path baseDir dsName ts,
          { dirs := st.dirs ++ [get_dataset_path baseDir dsName ts]
            copied := st.copied ++ arts.map fun pf =>
              get_dataset_path baseDir dsName ts ++ "/" ++ pf.filename
            manifests := st.manifests ++
              [get_dataset_path baseDir dsName ts ++ "/metadata.json"] })) ∧
    (∀ e st', store_parquet_files baseDir failSrc manifestFails dsName ts arts st =
        .error (e, st') →
      (∃ msg, e = PyExc.storageError msg) ∧ st'.manifests = st.manifests ∧
      st'.dirs = st.dirs ++ [get_dataset_path baseDir dsName ts] ∧
      ∃ k, st'.copied = st.copied ++ (arts.take k).map fun pf =>
        get_dataset_path baseDir dsName ts ++ "/" ++ pf.filename) ∧
    ((∃ e st', store_parquet_files baseDir failSrc manifestFails dsName ts arts st =
        .error (e, st')) ↔
      arts ≠ [] ∧ ((∃ pf ∈ arts, failSrc.contains pf.path = true) ∨ manifestFails = true)) := by
  by_cases hne : arts = []
  · subst hne
    refine ⟨fun h => absurd rfl h, ?_, ?_⟩
    · intro e st' h
      rw [store_parquet_files_nil] at h
      cases h
    · constructor
      · rintro ⟨e, st', h⟩
        rw [store_parquet_files_nil] at h
        cases h
      · rintro ⟨h, _⟩
        exact absurd rfl h
  · have hee : arts.isEmpty = false := by
      rw [Bool.eq_false_iff]
      intro hc
      exact hne (List.isEmpty_iff.mp hc)
    refine ⟨?_, ?_, ?_⟩
    · intro _ hok hmani
      subst hmani
      unfold store_parquet_files
      rw [hee, copyLoop_ok _ _ arts _ hok]
      simp
    · intro e st' h
      unfold store_parquet_files at h
      rw [hee] at h
      simp only [Bool.false_eq_true, if_neg] at h
      cases hcl : copyLoop (get_dataset_path baseDir dsName ts) failSrc arts
          { st with dirs := st.dirs ++ [get_dataset_path baseDir dsName ts] } with
      | error es =>
        rw [hcl] at h
        have hes : es = (e, st') := by injection h
        obtain ⟨he, hd, hm, k, hc⟩ := copyLoop_error _ _ arts _ e st' (hes ▸ hcl)
        exact ⟨⟨"failed to store parquet file", he⟩, hm, hd, k, hc⟩
      | ok st2 =>
        rw [hcl] at h
        have hok : ∀ pf ∈ arts, failSrc.contains pf.path = false :=
          (copyLoop_isOk_iff _ _ arts _).mp ⟨st2, hcl⟩
        rw [copyLoop_ok _ _ arts _ hok] at hcl
        have hst2 : st2 = StoreFs.mk (st.dirs ++ [get_dataset_path baseDir dsName ts])
            (st.copied ++ arts.map fun pf =>
              get_dataset_path baseDir dsName ts ++ "/" ++ pf.filename)
            st.manifests := by
          injection hcl with h2
          exact h2.symm
        subst hst2
        cases hmf : manifestFails with
        | false =>
          rw [hmf] at h
          simp at h
        | true =>
          rw [hmf] at h
          injection h with hpair
          rw [Prod.mk.injEq] at hpair
          obtain ⟨he, hst⟩ := hpair
          subst he
          subst hst
          refine ⟨⟨"failed to save metadata", rfl⟩, rfl, rfl, arts.length, ?_⟩
          rw [List.take_of_length_le (le_refl _)]
    · constructor
      · rintro ⟨e, st', h⟩
        refine ⟨hne, ?_⟩
        by_cases hok : ∀ pf ∈ arts, failSrc.contains pf.path = false
        · right
          cases hmf : manifestFails with
          | true => rfl
          | false =>
            exfalso
            unfold store_parquet_files at h
            rw [hee, copyLoop_ok _ _ arts _ hok, hmf] at h
            simp at h
        · left
          push_neg at hok
          obtain ⟨pf, hpf, hval⟩ := hok
          refine ⟨pf, hpf, ?_⟩
          revert hval
          cases failSrc.contains pf.path <;> simp
      · rintro ⟨_, hcase⟩
        unfold store_parquet_files
        rw [hee]
        simp only [Bool.false_eq_true, if_neg]
        cases hcl : copyLoop (get_dataset_path baseDir dsName ts) failSrc arts
            { st with dirs := st.dirs ++ [get_dataset_path baseDir dsName ts] } with
        | error es => exact ⟨es.1, es.2, rfl⟩
        | ok st2 =>
          have hok : ∀ pf ∈ arts, failSrc.contains pf.path = false :=
            (copyLoop_isOk_iff _ _ arts _).mp ⟨st2, hcl⟩
          rcases hcase with ⟨pf, hpf, hval⟩ | hmani
          · rw [hok pf hpf] at hval
            cases hval
          · rw [hmani]
            exact ⟨_, _, rfl⟩

/-- Witness for C5: storing one artifact with no failures copies it into
the resolved dataset directory and writes the manifest. -/
theorem store_parquet_files_c5_witness :
    store_parquet_files "data" [] false "ds" "t" [artStoreA]
        { dirs := [], copied := [], manifests := [] }
      = .ok ("data/kaggle/ds_t",
          { dirs := ["data/kaggle/ds_t"], copied := ["data/kaggle/ds_t/a.parquet"],
            manifests := ["data/kaggle/ds_t/metadata.json"] }) := by
  have h := (store_parquet_files_c5 "data" [] false "ds" "t" [artStoreA]
      { dirs := [], copied := [], manifests := [] }).1 (by decide) (by decide) rfl
  rw [h]
  decide

/-- C8: list_datasets returns exactly one record per kept directory
entry (a corrupt or missing manifest degrades the record instead of
raising or omitting it), keeps under a pattern exactly the entries whose
lowercased name contains the lowercased pattern, caps the count at a
positive limit, and orders the returned records by their creation key,
most recent first. -/
theorem list_datasets_spec_c8 (baseDir : String) (entries : List DirEnt)
    (pattern : Option String) (detail : Bool) (limit : Option Int) :
    (list_datasets baseDir entries pattern detail limit).Perm
        ((capLimit limit (filterPattern pattern entries)).map (recordOf baseDir detail)) ∧
    (list_datasets baseDir entries pattern detail limit).Pairwise
        (fun a b => pyStrLt (recCreated a) (recCreated b) = false) ∧
    (∀ p, pattern = some p → ∀ d : DirEnt,
      d ∈ filterPattern pattern entries ↔
        d ∈ entries ∧ strContains (pyToLower d.name) (pyToLower p) = true) ∧
    (pattern = none → filterPattern pattern entries = entries) ∧
    (∀ l : Int, limit = some l → 0 < l →
      (list_datasets baseDir entries pattern detail limit).length =
        min l.toNat (filterPattern pattern entries).length) ∧
    ((limit = none ∨ ∃ l : Int, l ≤ 0 ∧ limit = some l) →
      (list_datasets baseDir entries pattern detail limit).length =
        (filterPattern pattern entries).length) ∧
    (∀ d ∈ capLimit limit (filterPattern pattern entries),
      recordOf baseDir detail d ∈ list_datasets baseDir entries pattern detail limit) := by
  have hperm : (list_datasets baseDir entries pattern detail limit).Perm
      ((capLimit limit (filterPattern pattern entries)).map (recordOf baseDir detail)) :=
    sortDesc_perm recCreated _
  refine ⟨hperm, ?_, ?_, ?_, ?_, ?_, ?_⟩
  · exact sortDesc_pairwise recCreated _
  · intro p hp d
    subst hp
    simp [filterPattern, List.mem_filter]
  · intro hp
    subst hp
    rfl
  · intro l hl hpos
    subst hl
    rw [hperm.length_eq, List.length_map]
    simp only [capLimit, hpos, if_pos]
    rw [List.length_take]
  · intro hcase
    rw [hperm.length_eq, List.length_map]
    rcases hcase with hnone | ⟨l, hle, hsome⟩
    · subst hnone; rfl
    · subst hsome
      simp only [capLimit]
      rw [if_neg (by omega)]
  · intro d hd
    rw [hperm.mem_iff]
    exact List.mem_map_of_mem _ hd

/-- Witness for C8 at two stored datasets: with the pattern alp and limit
one, the listing keeps min of the limit and the single match, and the
unfiltered listing returns both records ordered most recent first. -/
theorem list_datasets_spec_c8_witness :
    (list_datasets "base" entsDemo (some "alp") false (some 1)).length
        = min (1 : Int).toNat (filterPattern (some "alp") entsDemo).length ∧
    list_datasets "base" entsDemo none false none
      = [DsRecord.brief "beta" "base/kaggle/beta" "2024-06-01" "r2" 1,
         DsRecord.brief "alpha" "base/kaggle/alpha" "2024-01-01" "r1" 2] := by
  have h := list_datasets_spec_c8 "base" entsDemo (some "alp") false (some 1)
  exact ⟨h.2.2.2.2.1 1 rfl (by norm_num), by decide⟩

/-- C1: convert_dataset partitions its input into three disjoint sets
(eligible, unsupported, and already-converted with force off), each
characterized by the stated conditions and jointly covering the input;
an eligible file whose conversion fails with a ConversionError or
UnsupportedFormatError is logged and dropped without aborting the
sequential loop; when every eligible failure is of those kinds the batch
returns normally with exactly the successful artifacts, in both the
sequential and the worker-pool branch; and a batch of one supported and
one unsupported file into a fresh output directory returns exactly the
artifact of the supported file without raising. -/
theorem convert_dataset_spec_c1 (existsOut : List String) (force : Bool)
    (processes cpu : Nat) (outcome : DataFile → Except PyExc ParquetFile)
    (files : List DataFile) :
    ((partitionFiles existsOut force files).1 ++ (partitionFiles existsOut force files).2.1 ++
        (partitionFiles existsOut force files).2.2).Perm files ∧
    (∀ f ∈ (partitionFiles existsOut force files).1,
      is_supported_format f.format = true ∧
        (force = true ∨ existsOut.contains (outputName f.filename) = false)) ∧
    (∀ f ∈ (partitionFiles existsOut force files).2.1,
      is_supported_format f.format = false) ∧
    (∀ f ∈ (partitionFiles existsOut force files).2.2,
      is_supported_format f.format = true ∧ force = false ∧
        existsOut.contains (outputName f.filename) = true) ∧
    (∀ (l1 l2 : List DataFile) (f : DataFile) (e : PyExc),
      outcome f = .error e → caughtByBatchExcept e = true →
      convertSeq outcome (l1 ++ f :: l2) = convertSeq outcome (l1 ++ l2)) ∧
    ((∀ f ∈ (partitionFiles existsOut force files).1, ∀ e, outcome f = .error e →
        caughtByBatchExcept e = true) →
      convert_dataset existsOut force processes cpu outcome files =
        .ok ((partitionFiles existsOut force files).1.filterMap
          fun f => (outcome f).toOption)) ∧
    (∀ (f1 f2 : DataFile) (a : ParquetFile),
      is_supported_format f1.format = true → is_supported_format f2.format = false →
      outcome f1 = .ok a →
      convert_dataset [] false processes cpu outcome [f1, f2] = .ok [a]) := by
  obtain ⟨hsup, hunsup, halready⟩ := partitionFiles_mem existsOut force files
  refine ⟨partitionFiles_perm existsOut force files, hsup, hunsup, halready, ?_, ?_, ?_⟩
  · intro l1 l2 f e hf hc
    exact convertSeq_middle outcome f e hf hc l1 l2
  · intro hcaught
    have hfilter : (partitionFiles existsOut force files).1.filter
        (fun f => is_supported_format f.format) = (partitionFiles existsOut force files).1 :=
      List.filter_eq_self.mpr fun f hf => (hsup f hf).1
    unfold convert_dataset
    by_cases hemp : (partitionFiles existsOut force files).1.isEmpty = true
    · rw [if_pos hemp]
      rw [List.isEmpty_iff.mp hemp]
      rfl
    · rw [if_neg hemp]
      by_cases hbranch : (partitionFiles existsOut force files).1.length = 1 ∨ processes ≤ 1
      · rw [if_pos hbranch]
        exact convertSeq_all_caught outcome _ hcaught
      · rw [if_neg hbranch]
        unfold multi_process_convert
        rw [hfilter, if_neg hemp]
        by_cases hb2 : (partitionFiles existsOut force files).1.length = 1 ∨
            max 1 (min processes (min (partitionFiles existsOut force files).1.length cpu)) ≤ 1
        · rw [if_pos hb2]
          exact convertSeq_all_caught outcome _ hcaught
        · rw [if_neg hb2]
          rfl
  · intro f1 f2 a h1 h2 ha
    have hpart : partitionFiles [] false [f1, f2] = ([f1], [f2], []) := by
      simp [partitionFiles, h1, h2]
    unfold convert_dataset
    rw [hpart]
    simp only [List.isEmpty_cons, List.length_singleton, true_or, if_pos, if_neg,
      Bool.false_eq_true]
    simp only [convertSeq, ha]
    rfl

/-- Witness for C1: a batch of one supported CSV file and one unsupported
file, with four workers configured, returns exactly the artifact of the
supported file. -/
theorem convert_dataset_spec_c1_witness :
    convert_dataset [] false 4 8 outcomeDemo [dfCsvDemo, dfOtherDemo] = .ok [artDemo] :=
  (convert_dataset_spec_c1 [] false 4 8 outcomeDemo [dfCsvDemo, dfOtherDemo]).2.2.2.2.2.2
    dfCsvDemo dfOtherDemo artDemo (by decide) (by decide) rfl

set_option maxRecDepth 1000000 in
/-- C3 counterexample: a column holding integer literals in its first
thousand rows and a string-like value in row 1001 is an ambiguous,
mixed-type column (both cell classes occur, in different chunks at chunk
size 500), yet the chunked CSV conversion does not force it to string —
the sampled dtype stays integer and the conversion of the later chunk
fails outright instead of producing the claimed single output file with
the summed row count. -/
theorem convert_csv_chunked_c3_cex :
    convert_csv_big tblMixedLate 500 = .error (.typeErrorNoKw "ConversionError") ∧
    tblMixedLate.rows.any (fun row => isIntCell (row.getD 0 "")) = true ∧
    tblMixedLate.rows.any (fun row => !(isIntCell (row.getD 0 ""))) = true ∧
    sampleDtypes tblMixedLate = [.int64] := by
  exact ⟨rfl, rfl, rfl, rfl⟩

/-- C3 (amended): chunked CSV conversion infers names and dtypes from the
leading 1000-row sample and forces every column that the sample types as
object to string, so conversion outcome, output schema and reported row
count (the sum of per-chunk counts, equal to the total row count) do not
depend on where the chunk boundaries fall; a column whose sampled dtype
is integer converts successfully exactly when all its cells are integer
literals — when string-like values first appear after the sample, the
conversion fails instead of widening the schema. -/
theorem convert_csv_chunked_spec_c3 (t : Table) (c1 c2 : Nat)
    (hc1 : 0 < c1) (hc2 : 0 < c2) :
    convert_csv_big t c1 = convert_csv_big t c2 ∧
    (∀ r, convert_csv_big t c1 = .ok r →
      r.schema = t.header.zip (sampleDtypes t) ∧ r.rows = t.rows.length) ∧
    (∀ j, (∃ row ∈ t.rows.take 1000, isIntCell (row.getD j "") = false) →
      (sampleDtypes t).getD j .obj = .obj) ∧
    ((∀ j, j < t.header.length → (sampleDtypes t).getD j .obj = .int64 →
        ∀ row ∈ t.rows, isIntCell (row.getD j "") = true) →
      t.rows ≠ [] → ∃ r, convert_csv_big t c1 = .ok r) := by
  obtain ⟨k1, rfl⟩ : ∃ k1, c1 = k1 + 1 := ⟨c1 - 1, by omega⟩
  obtain ⟨k2, rfl⟩ : ∃ k2, c2 = k2 + 1 := ⟨c2 - 1, by omega⟩
  refine ⟨?_, ?_, ?_, ?_⟩
  · rw [convert_csv_big_eq, convert_csv_big_eq]
  · intro r hr
    rw [convert_csv_big_eq] at hr
    by_cases hnil : t.rows = []
    · rw [if_pos hnil] at hr
      cases hr
    · rw [if_neg hnil] at hr
      cases hm : t.rows.mapM (readRowForced t.header (sampleDtypes t)) with
      | error e => rw [hm] at hr; cases hr
      | ok full =>
        rw [hm] at hr
        cases hr
        exact ⟨rfl, rfl⟩
  · intro j hj
    obtain ⟨row, hrow, hcell⟩ := hj
    unfold sampleDtypes inferDtypes
    rw [getD_map_range]
    by_cases hlt : j < t.header.length
    · rw [if_pos hlt]
      unfold inferDtype
      rw [if_neg ?_]
      intro hall
      rw [List.all_eq_true] at hall
      have := hall (row.getD j "") (List.mem_map_of_mem _ hrow)
      rw [hcell] at this
      cases this
    · rw [if_neg hlt]
  · intro hint hne
    rw [convert_csv_big_eq, if_neg hne]
    have hrows : ∃ full, t.rows.mapM (readRowForced t.header (sampleDtypes t)) = .ok full := by
      apply except_mapM_ok_of_forall
      intro row hrow
      apply except_mapM_ok_of_forall
      intro j hjr
      rw [List.mem_range] at hjr
      unfold readCell
      by_cases hcase : (sampleDtypes t).getD j .obj = .int64 ∧
          ¬ isIntCell (row.getD j "") = true
      · exfalso
        exact hcase.2 (hint j hjr hcase.1 row hrow)
      · rw [if_neg hcase]
        exact ⟨_, rfl⟩
    obtain ⟨full, hfull⟩ := hrows
    rw [hfull]
    exact ⟨_, rfl⟩

/-- Witness for C3 on a two-row table mixing an integer and a string
inside the sample: the chunked conversion result is the same at chunk
sizes one and two, and both succeed because the mixed column was forced
to string. -/
theorem convert_csv_chunked_spec_c3_witness :
    convert_csv_big tblMixedEarly 1 = convert_csv_big tblMixedEarly 2 ∧
    (∃ r, convert_csv_big tblMixedEarly 1 = .ok r) ∧
    sampleDtypes tblMixedEarly = [.obj] := by
  have h := convert_csv_chunked_spec_c3 tblMixedEarly 1 2 (by decide) (by decide)
  refine ⟨h.1, h.2.2.2 ?_ (by decide), by decide⟩
  intro j hj hdt
  have hj0 : j = 0 := by
    have : tblMixedEarly.header.length = 1 := by decide
    omega
  subst hj0
  rw [show (sampleDtypes tblMixedEarly).getD 0 Dtype.obj = Dtype.obj from by decide] at hdt
  cases hdt

end KD
